import Mathlib

/-!
Verification development for the claudegrid session server.

The definitions below are a shallow embedding of the JavaScript sources:
`server/tmux.js`, `server/SessionStore.js`, `server/permissionDetector.js`,
`server/index.js`, `server/SessionManager.js` and `client/js/EventScheduler.js`.
JavaScript `Map` objects are modelled as insertion-ordered association lists,
machine timestamps (`Date.now()` / `performance.now()`) as explicit `Int`
parameters, and external-process calls (tmux invocations, file writes, timers)
as an explicit effect trace.  Fallible code returns `Except`.
-/

namespace Claudegrid

/-! ### Association-list helpers (JavaScript `Map` semantics)

A JS `Map` preserves insertion order; `set` of an existing key updates the
entry in place, `set` of a fresh key appends, `delete` removes the entry. -/

def mapGet {α : Type} (l : List (String × α)) (k : String) : Option α :=
  match l with
  | [] => none
  | (k', v) :: rest => if k' = k then some v else mapGet rest k

def mapSet {α : Type} (l : List (String × α)) (k : String) (v : α) : List (String × α) :=
  match l with
  | [] => [(k, v)]
  | (k', v') :: rest => if k' = k then (k, v) :: rest else (k', v') :: mapSet rest k v

def mapDelete {α : Type} (l : List (String × α)) (k : String) : List (String × α) :=
  match l with
  | [] => []
  | (k', v') :: rest => if k' = k then rest else (k', v') :: mapDelete rest k

def mapKeys {α : Type} (l : List (String × α)) : List String :=
  l.map Prod.fst

def mapValues {α : Type} (l : List (String × α)) : List α :=
  l.map Prod.snd

/-- JS truthiness of an optional string field: `undefined`/`null` and the
empty string are falsy, every other string is truthy. -/
def strOptTruthy : Option String → Bool
  | none => false
  | some s => s ≠ ""

/-! ### `server/tmux.js` -/

/-- One externally visible effect of the tmux layer.  `tmuxCmd args` is an
`execFile('tmux', args, ...)` call (argument vector, no shell); `shellEval`
is the shell-interpreted alternative (`exec(cmdline)`), present in the effect
language but never emitted by the code under verification. -/
inductive TmuxEffect : Type
  | shellEval (cmdline : String)
  | tmuxCmd (args : List String)
  | writeFile (path contents : String)
  | sleep (ms : Nat)
  | unlinkFile (path : String)
  deriving DecidableEq, Repr

/-- Character class of the name whitelist regex `/^[a-zA-Z0-9_-]+$/`. -/
def isTmuxNameChar (c : Char) : Bool :=
  c.isAlpha || c.isDigit || c = '_' || c = '-'

/-- `validateTmuxName` from `server/tmux.js`: non-empty, whitelisted
characters only, at most 64 characters. -/
def validateTmuxName (name : String) : Except String String :=
  if name = "" then .error "Invalid tmux session name"
  else if ¬ (name.toList.all isTmuxNameChar) then
    .error "Tmux session name contains invalid characters"
  else if name.length > 64 then .error "Tmux session name too long"
  else .ok name

/-- Argument vector of the `listSessions` tmux call. -/
def listSessionsArgs : List String :=
  ["list-sessions", "-F", "#\x7bsession_name\x7d"]

/-- Argument vector of the `load-buffer` step of `sendToTmuxSafe`. -/
def loadBufferArgs (tempFile : String) : List String :=
  ["load-buffer", tempFile]

/-- Argument vector of the `paste-buffer` step (targets pane `name:0.0`). -/
def pasteBufferArgs (name : String) : List String :=
  ["paste-buffer", "-t", name ++ ":0.0"]

/-- Argument vector of the final `send-keys ... Enter` step. -/
def sendEnterArgs (name : String) : List String :=
  ["send-keys", "-t", name ++ ":0.0", "Enter"]

/-- `sendToTmuxSafe` from `server/tmux.js`, as a function from the set of
live tmux session names, the session name, the text payload, the generated
temp-file path, and the success/failure outcome of each external tmux call
(`loadOk`, `pasteOk`, `enterOk`) to the result together with the ordered
trace of effects actually performed.  On any tmux-call failure the `finally`
block still unlinks the temp file before the error propagates. -/
def sendToTmuxSafe (live : List String) (sessionName text tempFile : String)
    (loadOk pasteOk enterOk : Bool) : Except String Unit × List TmuxEffect :=
  match validateTmuxName sessionName with
  | .error e => (.error e, [])
  | .ok validName =>
    -- `sessionExists` runs `listSessions`, i.e. one tmux invocation
    let tr0 : List TmuxEffect := [.tmuxCmd listSessionsArgs]
    if validName ∉ live then
      (.error ("Tmux session '" ++ validName ++ "' not found"), tr0)
    else
      -- Step 1: write prompt to temp file
      let tr1 := tr0 ++ [.writeFile tempFile text]
      -- Step 2: load into tmux paste buffer
      let tr2 := tr1 ++ [.tmuxCmd (loadBufferArgs tempFile)]
      if ¬ loadOk then
        (.error "load-buffer failed", tr2 ++ [.unlinkFile tempFile])
      else
        -- Step 3: paste buffer into the target pane
        let tr3 := tr2 ++ [.tmuxCmd (pasteBufferArgs validName)]
        if ¬ pasteOk then
          (.error "paste-buffer failed", tr3 ++ [.unlinkFile tempFile])
        else
          -- Step 4: wait 100ms, then send Enter
          let tr4 := tr3 ++ [.sleep 100, .tmuxCmd (sendEnterArgs validName)]
          if ¬ enterOk then
            (.error "send-keys failed", tr4 ++ [.unlinkFile tempFile])
          else
            -- Step 5: clean up temp file
            (.ok (), tr4 ++ [.unlinkFile tempFile])

/-! ### `server/SessionStore.js` -/

/-- The `SessionState` enum of `server/SessionStore.js`. -/
inductive SessionState : Type
  | idle
  | working
  | waiting
  | offline
  deriving DecidableEq, Repr

/-- A managed session record (the objects held in `SessionStore.sessions`).
`claudeSessionId` is `null` until the session is linked. -/
structure ManagedSession : Type where
  id : String
  name : String
  directory : String
  tmuxSession : String
  state : SessionState
  claudeSessionId : Option String
  createdAt : Int
  lastActivity : Int
  deriving DecidableEq, Repr

/-- An observed session record (the objects held in
`SessionStore.observedSessions`): hook events only, no tmux backing.
`cwd` is the extra property written by `Object.assign(session, updates, ...)`
in `upsertObserved`, distinct from `directory` which is set at creation. -/
structure ObservedSession : Type where
  id : String
  claudeSessionId : String
  name : String
  directory : Option String
  state : SessionState
  cwd : Option String
  createdAt : Int
  lastActivity : Int
  deriving DecidableEq, Repr

/-- The in-memory state of a `SessionStore`: two insertion-ordered maps.
Persistence (`save`/`load`) writes the same data to disk and is not part of
the registry state. -/
structure Store : Type where
  sessions : List (String × ManagedSession)
  observedSessions : List (String × ObservedSession)
  deriving DecidableEq, Repr

/-- `SessionStore.get`. -/
def Store.get (st : Store) (id : String) : Option ManagedSession :=
  mapGet st.sessions id

/-- An entry of the heterogeneous array returned by `SessionStore.getAll`. -/
inductive StoreEntry : Type
  | managed (s : ManagedSession)
  | observed (s : ObservedSession)
  deriving DecidableEq, Repr

/-- `SessionStore.getAll`: managed sessions that are not offline, followed by
all observed sessions. -/
def Store.getAll (st : Store) : List StoreEntry :=
  ((mapValues st.sessions).filter (fun s => s.state ≠ SessionState.offline)).map
      StoreEntry.managed
    ++ (mapValues st.observedSessions).map StoreEntry.observed

/-- `SessionStore.update`: apply the update object to the session (modelled
as a field patch) and stamp `lastActivity` with the current time. -/
def Store.update (st : Store) (id : String) (patch : ManagedSession → ManagedSession)
    (now : Int) : Store :=
  match mapGet st.sessions id with
  | none => st
  | some s =>
    let s' := { patch s with lastActivity := now }
    { st with sessions := mapSet st.sessions id s' }

/-- `SessionStore.setState`. -/
def Store.setState (st : Store) (id : String) (state : SessionState) (now : Int) : Store :=
  st.update id (fun s => { s with state := state }) now

/-- `SessionStore.linkClaudeSession`: if the managed session exists, set its
`claudeSessionId` field (in place; `lastActivity` is not touched). -/
def Store.linkClaudeSession (st : Store) (claudeSessionId managedSessionId : String) :
    Store :=
  match mapGet st.sessions managedSessionId with
  | none => st
  | some s =>
    { st with
      sessions := mapSet st.sessions managedSessionId
        { s with claudeSessionId := some claudeSessionId } }

/-- `SessionStore.findByClaudeSessionId`: first managed session whose
`claudeSessionId` equals the argument, else the observed map entry. -/
def Store.findByClaudeSessionId (st : Store) (claudeSessionId : String) :
    Option StoreEntry :=
  match (mapValues st.sessions).find? (fun s => s.claudeSessionId = some claudeSessionId) with
  | some s => some (StoreEntry.managed s)
  | none => (mapGet st.observedSessions claudeSessionId).map StoreEntry.observed

/-- `SessionStore.findUnlinkedByDirectory`: first managed session with the
given directory whose `claudeSessionId` is still falsy. -/
def Store.findUnlinkedByDirectory (st : Store) (directory : String) :
    Option ManagedSession :=
  (mapValues st.sessions).find?
    (fun s => s.directory = directory ∧ strOptTruthy s.claudeSessionId = false)

/-- `SessionStore.upsertObserved`: create the observed record if absent (id
and name derived from the first 8 characters of the Claude session id), then
`Object.assign` the updates (`state` and `cwd` at the call site) and stamp
`lastActivity`. -/
def Store.upsertObserved (st : Store) (claudeSessionId : String)
    (state : SessionState) (cwd : Option String) (now : Int) : Store :=
  let base :=
    match mapGet st.observedSessions claudeSessionId with
    | some s => s
    | none =>
      { id := (claudeSessionId.toList.take 8).asString
        claudeSessionId := claudeSessionId
        name := "Observed " ++ (claudeSessionId.toList.take 8).asString
        directory := cwd
        state := SessionState.working
        cwd := none
        createdAt := now
        lastActivity := now }
  let s' := { base with state := state, cwd := cwd, lastActivity := now }
  { st with observedSessions := mapSet st.observedSessions claudeSessionId s' }

/-- `SessionStore.removeObserved`. -/
def Store.removeObserved (st : Store) (claudeSessionId : String) : Store :=
  { st with observedSessions := mapDelete st.observedSessions claudeSessionId }

/-- `SessionStore.getObserved`. -/
def Store.getObserved (st : Store) (claudeSessionId : String) : Option ObservedSession :=
  mapGet st.observedSessions claudeSessionId

/-- `SessionStore.delete` (managed sessions). -/
def Store.deleteSession (st : Store) (id : String) : Store :=
  { st with sessions := mapDelete st.sessions id }

/-! ### String primitives

Computable char-list models of the JavaScript string operations used by the
permission detector (`split('\n')`, `trim()`, `toLowerCase()`, substring
search), written by structural recursion so that concrete runs reduce. -/

/-- `String.prototype.split` on a single character. -/
def splitOnChar (c : Char) : List Char → List (List Char)
  | [] => [[]]
  | x :: xs =>
    match splitOnChar c xs with
    | [] => if x = c then [[], []] else [[x]]
    | h :: t => if x = c then [] :: h :: t else (x :: h) :: t

/-- `output.split('\n')`. -/
def splitLines (s : String) : List String :=
  (splitOnChar '\n' s.toList).map List.asString

/-- `String.prototype.trim`. -/
def jsTrim (s : String) : String :=
  (((s.toList.dropWhile Char.isWhitespace).reverse.dropWhile
    Char.isWhitespace).reverse).asString

/-- `String.prototype.toLowerCase` (over the characters). -/
def lowerChars (s : String) : List Char :=
  s.toList.map Char.toLower

/-- `Array.prototype.join('\n')`. -/
def joinLines : List String → String
  | [] => ""
  | [x] => x
  | x :: y :: xs => x ++ "\n" ++ joinLines (y :: xs)

/-- Is `p` a prefix of `l`? -/
def charPrefix : List Char → List Char → Bool
  | [], _ => true
  | _ :: _, [] => false
  | a :: as, b :: bs => a = b && charPrefix as bs

/-- Is `needle` a contiguous substring of `hay`? -/
def charInfix (needle hay : List Char) : Bool :=
  charPrefix needle hay ||
    match hay with
    | [] => false
    | _ :: t => charInfix needle t

/-! ### `server/permissionDetector.js` -/

/-- Case-insensitive substring test: every pattern in `PERMISSION_PATTERNS`
is an `/i`-flagged literal, so `pattern.test(output)` is a case-insensitive
substring match. -/
def ciContains (haystack needle : String) : Bool :=
  charInfix (lowerChars needle) (lowerChars haystack)

/-- The literals of `PERMISSION_PATTERNS` (each compiled with the `i` flag). -/
def permissionPatterns : List String :=
  ["Do you want to proceed?", "Allow this action?", "Do you want to allow",
   "Approve this", "[y/n]", "(y/n)"]

/-- `PERMISSION_PATTERNS.some(pattern => pattern.test(output))`. -/
def hasPermissionPrompt (output : String) : Bool :=
  permissionPatterns.any (fun p => ciContains output p)

/-- Truncation to a signed 32-bit integer (JavaScript `x & x` / `ToInt32`). -/
def toInt32 (x : Int) : Int :=
  let m := x % 4294967296
  if m < 2147483648 then m else m - 4294967296

/-- `hashString` from `server/permissionDetector.js`:
`hash = ((hash << 5) - hash) + charCode; hash = hash & hash` over the string.
The JS code renders the hash in hex; the model keeps the integer value
(the rendering is injective, so signature comparisons agree). -/
def hashString (str : String) : Int :=
  str.toList.foldl (fun hash c => toInt32 (toInt32 (hash * 32) - hash + c.toNat)) 0

/-- One numbered option extracted from the pane output. -/
structure PromptOption : Type where
  number : String
  label : String
  deriving DecidableEq, Repr

/-- Per-line match of `/^\s*(\d+)\.\s*(.+)$/` followed by `match[2].trim()`:
leading whitespace, one or more digits, a dot, and a non-empty remainder;
the label is the trimmed remainder. -/
def parseOptionLine (line : String) : Option PromptOption :=
  let afterWs := line.toList.dropWhile Char.isWhitespace
  let digits := afterWs.takeWhile Char.isDigit
  let rest := afterWs.dropWhile Char.isDigit
  if digits = [] then none
  else
    match rest with
    | '.' :: tail =>
      if tail = [] then none
      else some { number := digits.asString, label := jsTrim tail.asString }
    | _ => none

/-- `extractOptions`: scan the last 15 lines for numbered options; default to
a binary yes/no option set when none are found. -/
def extractOptions (output : String) : List PromptOption :=
  let lines := splitLines output
  let options := (lines.drop (lines.length - 15)).filterMap parseOptionLine
  if options = [] then
    [{ number := "y", label := "Yes" }, { number := "n", label := "No" }]
  else options

/-- `extractPromptText`: the last line (searching bottom-up, on trimmed
lines) matching a permission pattern, together with up to three lines of
context above it, trimmed; fallback: the last five non-blank lines. -/
def extractPromptText (output : String) : String :=
  let lines := splitLines output
  let rec search (i : Nat) : Option String :=
    match i with
    | 0 => none
    | j + 1 =>
      let line := jsTrim ((lines.get? j).getD "")
      if hasPermissionPrompt line then
        some (jsTrim (joinLines ((lines.take (j + 1)).drop (j - 3))))
      else search j
  match search lines.length with
  | some t => t
  | none =>
    joinLines (((lines.filter (fun l => jsTrim l ≠ "")).reverse.take 5).reverse)

/-- The `permission-detected` signal delivered to the `onPermissionPrompt`
callback. -/
structure PermSignal : Type where
  sessionId : String
  text : String
  options : List PromptOption
  deriving DecidableEq, Repr

/-- The `sentPrompts` map of `server/permissionDetector.js`
(session id ↦ signature of the last notified prompt). -/
abbrev SentPrompts : Type := List (String × Int)

/-- `checkSessionForPermission`, given the captured pane output of the
session's tmux pane.  Returns the updated store, the updated `sentPrompts`
map, and the emitted signal, if any. -/
def checkSessionForPermission (st : Store) (prompts : SentPrompts)
    (session : ManagedSession) (output : String) (now : Int) :
    Store × SentPrompts × Option PermSignal :=
  if ¬ hasPermissionPrompt output then
    -- no prompt on screen: clear any previous prompt tracking
    (st, mapDelete prompts session.id, none)
  else
    let lines := splitLines output
    let promptHash := hashString (joinLines (lines.drop (lines.length - 10)))
    if mapGet prompts session.id = some promptHash then
      (st, prompts, none)  -- already sent this prompt
    else
      let options := extractOptions output
      let st' := st.setState session.id SessionState.waiting now
      let prompts' := mapSet prompts session.id promptHash
      (st', prompts', some { sessionId := session.id
                             text := extractPromptText output
                             options := options })

/-! ### `server/index.js` — REST endpoints

HTTP handlers are modelled as functions of the request and the registry.
An uncaught synchronous throw inside a handler is answered by Express's
default error handler with a 500 status and aborts the rest of the handler
body. -/

/-- A JSON value as delivered by `express.json()` for a request-body field. -/
inductive JsVal : Type
  | str (s : String)
  | num (n : Int)
  | boolean (b : Bool)
  | jsNull
  deriving DecidableEq, Repr

/-- JavaScript truthiness of a `JsVal`. -/
def JsVal.truthy : JsVal → Bool
  | .str s => s ≠ ""
  | .num n => n ≠ 0
  | .boolean b => b
  | .jsNull => false

/-- Truthiness of a possibly-absent body field. -/
def fieldTruthy : Option JsVal → Bool
  | none => false
  | some v => v.truthy

/-- The hook-event request body, as read by `POST /api/events`
(`session_id`, `hook_event_name`, `cwd`). -/
structure RawEvent : Type where
  session_id : Option JsVal
  hook_event_name : Option String
  cwd : Option String
  deriving DecidableEq, Repr

/-- Response of `POST /api/sessions/:id/prompt`. -/
inductive PromptResponse : Type
  | notFound                  -- 404 "Session not found"
  | missingPrompt             -- 400 "Missing prompt"
  | okResp                    -- 200 ok
  | serverError (msg : String) -- 500 with the thrown message
  deriving DecidableEq, Repr

/-- `POST /api/sessions/:id/prompt` from `server/index.js`: look the session
up, require a truthy prompt, then call `sendToTmuxSafe` on the session's
tmux name and, on success, set the session state to `working`.  There is no
check of the stored session state.  Returns the response, the resulting
store, and the trace of external effects performed. -/
def promptEndpoint (st : Store) (live : List String) (id : String)
    (prompt : Option String) (tempFile : String) (loadOk pasteOk enterOk : Bool)
    (now : Int) : PromptResponse × Store × List TmuxEffect :=
  match st.get id with
  | none => (.notFound, st, [])
  | some session =>
    if ¬ strOptTruthy prompt then (.missingPrompt, st, [])
    else
      match sendToTmuxSafe live session.tmuxSession (prompt.getD "") tempFile
          loadOk pasteOk enterOk with
      | (.error e, tr) => (.serverError e, st, tr)
      | (.ok _, tr) =>
        (.okResp, st.setState session.id SessionState.working now, tr)

/-- Response of `POST /api/sessions/:id/link`. -/
inductive LinkResponse : Type
  | notFound    -- 404 "Session not found"
  | missingId   -- 400 "Missing claudeSessionId"
  | okResp      -- 200 ok
  deriving DecidableEq, Repr

/-- `POST /api/sessions/:id/link` from `server/index.js`: look the managed
session up, require a truthy `claudeSessionId`, then call
`linkClaudeSession` and broadcast.  Nothing else is done: in particular no
observed record is removed. -/
def linkEndpoint (st : Store) (id : String) (claudeSessionId : Option String) :
    LinkResponse × Store :=
  match st.get id with
  | none => (.notFound, st)
  | some session =>
    if ¬ strOptTruthy claudeSessionId then (.missingId, st)
    else
      (.okResp, st.linkClaudeSession (claudeSessionId.getD "") session.id)

/-- Whether a `findByClaudeSessionId` result is an observed record
(`session && session.observed`). -/
def isObservedEntry : Option StoreEntry → Bool
  | some (StoreEntry.observed _) => true
  | _ => false

/-- Result of `POST /api/events`. -/
structure EventsResult : Type where
  store : Store
  status : Nat          -- HTTP status of the response
  rawBroadcast : Bool   -- whether the raw event was broadcast to subscribers
  deriving DecidableEq, Repr

/-- `event.cwd || null`. -/
def cwdOrNull (e : RawEvent) : Option String :=
  if strOptTruthy e.cwd then e.cwd else none

/-- The managed-session branch of the `/api/events` handler: the
`if/else if` chain mapping the hook event name to a `setState` call. -/
def managedStateUpdate (st : Store) (id : String) (hook : Option String)
    (now : Int) : Store :=
  match hook with
  | some "SessionStart" => st.setState id SessionState.idle now
  | some "SessionEnd" => st.setState id SessionState.offline now
  | some "Stop" => st.setState id SessionState.idle now
  | some "SubagentStop" => st.setState id SessionState.idle now
  | some "PreToolUse" => st.setState id SessionState.working now
  | some "PostToolUse" => st.setState id SessionState.working now
  | some "UserPromptSubmit" => st.setState id SessionState.working now
  | _ => st

/-- `POST /api/events` from `server/index.js` (hook ingress).  When
`event.session_id` is truthy the handler classifies the event: it resolves
the session, attempts directory auto-linking (removing an observed duplicate
when one was found), and updates managed or observed state.  The handler
body evaluates `event.session_id.slice(0, 8)` while logging, so a truthy
non-string `session_id` raises a `TypeError`; Express then answers 500 and
the trailing raw-event broadcast and 200 response are never reached. -/
def eventsEndpoint (st : Store) (e : RawEvent) (now : Int) : EventsResult :=
  if fieldTruthy e.session_id then
    match e.session_id with
    | some (JsVal.str sid) =>
      let session0 := st.findByClaudeSessionId sid
      -- auto-link to an unlinked managed session by directory (done even if
      -- an observed session was found - managed sessions are preferred)
      let linked :=
        if strOptTruthy e.cwd then
          match st.findUnlinkedByDirectory (e.cwd.getD "") with
          | some m =>
            let st1 := st.linkClaudeSession sid m.id
            let st2 := if isObservedEntry session0 then st1.removeObserved sid else st1
            -- `session = managedSession`: the same object just mutated in place
            (st2, some (StoreEntry.managed { m with claudeSessionId := some sid }))
          | none => (st, session0)
        else (st, session0)
      let st' := linked.1
      match linked.2 with
      | some (StoreEntry.managed s) =>
        -- managed session: update state according to the hook event
        { store := managedStateUpdate st' s.id e.hook_event_name now
          status := 200, rawBroadcast := true }
      | _ =>
        -- observed session (existing or new)
        if e.hook_event_name = some "SessionEnd" then
          { store := st'.removeObserved sid, status := 200, rawBroadcast := true }
        else
          let state :=
            if e.hook_event_name = some "SessionStart"
                ∨ e.hook_event_name = some "Stop"
                ∨ e.hook_event_name = some "SubagentStop" then
              SessionState.idle
            else SessionState.working
          { store := st'.upsertObserved sid state (cwdOrNull e) now
            status := 200, rawBroadcast := true }
    | _ =>
      -- TypeError: event.session_id.slice is not a function → Express 500
      { store := st, status := 500, rawBroadcast := false }
  else
    { store := st, status := 200, rawBroadcast := true }

/-! ### `server/SessionManager.js` -/

/-- The `States` enum of `server/SessionManager.js` (visual states of a Bit). -/
inductive BitState : Type
  | neutral
  | thinking
  | yes
  | no
  | ending
  deriving DecidableEq, Repr

/-- A value of the `activeTools` map. -/
structure ToolInfo : Type where
  tool_name : Option String
  startTime : Int
  deriving DecidableEq, Repr

/-- A session record of `SessionManager` (hook-event world). -/
structure SMSession : Type where
  id : String
  parent_id : Option String
  state : BitState
  pendingPermissions : List String   -- a JS Set, insertion ordered
  isDimmed : Bool
  activeTools : List (String × ToolInfo)
  createdAt : Int
  lastActivity : Int
  deriving DecidableEq, Repr

/-- The `SessionManager` state: session map and parent → subagent-set map. -/
structure SessionManager : Type where
  sessions : List (String × SMSession)
  subagents : List (String × List String)
  deriving DecidableEq, Repr

/-- `Set.add`: append if not already present. -/
def setAdd (l : List String) (x : String) : List String :=
  if x ∈ l then l else l ++ [x]

/-- The hook-event body as read by `SessionManager.handleEvent`. -/
structure SMEvent : Type where
  session_id : Option String
  hook_event_name : Option String
  parent_session_id : Option String
  tool_use_id : Option String
  tool_name : Option String
  tool_use_blocked : Bool
  notification_type : Option String
  etype : Option String              -- `event.type`
  notification_id : Option String
  deriving DecidableEq, Repr

/-- The state-change record emitted by `handleEvent` (shape of the JS object
literal per case). -/
inductive StateChange : Type
  | create (state : BitState)
  | stateChange (state : BitState) (undim : Bool) (clearTools : Bool)
  | toolStart (tool_use_id : Option String) (tool_name : Option String)
  | toolEnd (tool_use_id : Option String) (state : Option BitState)
      (autoRevert : Option BitState) (revertDelay : Option Int)
  | dim (dimmed : Bool)
  | sessionEnd (state : BitState)
  deriving DecidableEq, Repr

/-- `SessionManager.createSession`: build a fresh `NEUTRAL` record, insert
it, and record the subagent relationship when a parent id is given. -/
def SessionManager.createSession (m : SessionManager) (session_id : String)
    (parent_session_id : Option String) (now : Int) : SessionManager × SMSession :=
  let session : SMSession :=
    { id := session_id
      parent_id := parent_session_id
      state := BitState.neutral
      pendingPermissions := []
      isDimmed := false
      activeTools := []
      createdAt := now
      lastActivity := now }
  let m1 := { m with sessions := mapSet m.sessions session_id session }
  let m2 :=
    if strOptTruthy parent_session_id then
      let pid := parent_session_id.getD ""
      let cur := (mapGet m1.subagents pid).getD []
      { m1 with subagents := mapSet m1.subagents pid (setAdd cur session_id) }
    else m1
  (m2, session)

/-- `SessionManager.handleEvent`, switching on `hook_event_name`.  `now` is
`Date.now()`.  Returns the updated manager and the emitted state change
(the source wraps it with the session id and raw event before returning). -/
def SessionManager.handleEvent (m : SessionManager) (e : SMEvent) (now : Int) :
    SessionManager × Option StateChange :=
  if ¬ strOptTruthy e.session_id then (m, none)
  else
    let sid := e.session_id.getD ""
    let session? := mapGet m.sessions sid
    match e.hook_event_name with
    | some "SessionStart" =>
      let created := m.createSession sid e.parent_session_id now
      (created.1, some (StateChange.create BitState.neutral))
    | some "UserPromptSubmit" =>
      match session? with
      | none => (m, none)
      | some s =>
        let wasDimmed := s.isDimmed
        let s' := { s with state := BitState.thinking
                           pendingPermissions := []
                           lastActivity := now
                           isDimmed := false }
        ({ m with sessions := mapSet m.sessions sid s' },
         some (StateChange.stateChange BitState.thinking wasDimmed false))
    | some "PreToolUse" =>
      match session? with
      | none => (m, none)
      | some s =>
        let s1 := { s with lastActivity := now }
        let info : ToolInfo := { tool_name := e.tool_name, startTime := now }
        let s2 :=
          if strOptTruthy e.tool_use_id then
            { s1 with activeTools := mapSet s1.activeTools (e.tool_use_id.getD "") info }
          else s1
        ({ m with sessions := mapSet m.sessions sid s2 },
         some (StateChange.toolStart e.tool_use_id e.tool_name))
    | some "PostToolUse" =>
      match session? with
      | none => (m, none)
      | some s =>
        let success := ¬ e.tool_use_blocked
        let s1 := { s with lastActivity := now }
        let s2 :=
          if strOptTruthy e.tool_use_id then
            { s1 with activeTools := mapDelete s1.activeTools (e.tool_use_id.getD "") }
          else s1
        let s3 :=
          if strOptTruthy e.tool_use_id then
            { s2 with pendingPermissions := s2.pendingPermissions.erase (e.tool_use_id.getD "") }
          else s2
        if s3.pendingPermissions.length = 0 then
          -- only allow the state change if no more permissions are pending
          let newState := if success then BitState.yes else BitState.no
          let s4 := { s3 with state := newState }
          let revertState :=
            if s4.activeTools.length = 0 then BitState.neutral else BitState.thinking
          ({ m with sessions := mapSet m.sessions sid s4 },
           some (StateChange.toolEnd e.tool_use_id (some newState)
             (if success then some revertState else none)
             (if success then some 1500 else none)))
        else
          ({ m with sessions := mapSet m.sessions sid s3 },
           some (StateChange.toolEnd e.tool_use_id none none none))
    | some "Stop" =>
      match session? with
      | none => (m, none)
      | some s =>
        let s' := { s with state := BitState.neutral
                           pendingPermissions := []
                           activeTools := []
                           lastActivity := now }
        ({ m with sessions := mapSet m.sessions sid s' },
         some (StateChange.stateChange BitState.neutral false true))
    | some "SubagentStop" =>
      match session? with
      | none => (m, none)
      | some s =>
        let s' := { s with state := BitState.neutral
                           pendingPermissions := []
                           activeTools := []
                           lastActivity := now }
        ({ m with sessions := mapSet m.sessions sid s' },
         some (StateChange.stateChange BitState.neutral false true))
    | some "SessionEnd" =>
      match session? with
      | none => (m, none)
      | some s =>
        -- the deferred `setTimeout(removeSession, 2000)` is a later step
        let s' := { s with state := BitState.ending, pendingPermissions := [] }
        ({ m with sessions := mapSet m.sessions sid s' },
         some (StateChange.sessionEnd BitState.ending))
    | some "Notification" =>
      match session? with
      | none => (m, none)
      | some s =>
        let s1 := { s with lastActivity := now }
        let nt := if strOptTruthy e.notification_type then e.notification_type else e.etype
        if nt = some "idle_prompt" then
          let s2 := { s1 with isDimmed := true }
          ({ m with sessions := mapSet m.sessions sid s2 },
           some (StateChange.dim true))
        else
          let nid :=
            if strOptTruthy e.notification_id then e.notification_id.getD ""
            else "notification_" ++ toString now
          let s2 := { s1 with state := BitState.no
                              pendingPermissions := setAdd s1.pendingPermissions nid }
          ({ m with sessions := mapSet m.sessions sid s2 },
           some (StateChange.stateChange BitState.no false false))
    | some "PermissionRequest" =>
      match session? with
      | none => (m, none)
      | some s =>
        let pid :=
          if strOptTruthy e.tool_use_id then e.tool_use_id.getD ""
          else "permission_" ++ toString now
        let s' := { s with state := BitState.no
                           pendingPermissions := setAdd s.pendingPermissions pid
                           lastActivity := now }
        ({ m with sessions := mapSet m.sessions sid s' },
         some (StateChange.stateChange BitState.no false false))
    | _ =>
      -- unknown event: just update activity
      match session? with
      | none => (m, none)
      | some s =>
        ({ m with sessions := mapSet m.sessions sid { s with lastActivity := now } }, none)

/-- First block of `SessionManager.removeSession`: remove the session from
its parent's subagent list, dropping the parent's entry when it empties. -/
def SessionManager.pruneFromParent (m : SessionManager) (session_id : String)
    (session : SMSession) : SessionManager :=
  if strOptTruthy session.parent_id then
    let pid := session.parent_id.getD ""
    match mapGet m.subagents pid with
    | some siblings =>
      let siblings' := siblings.erase session_id
      if siblings'.length = 0 then
        { m with subagents := mapDelete m.subagents pid }
      else
        { m with subagents := mapSet m.subagents pid siblings' }
    | none => m
  else m

/-- Second block of `SessionManager.removeSession`: delete every recorded
subagent of the session from the session map and drop its subagent entry. -/
def SessionManager.deleteSubagents (m : SessionManager) (session_id : String) :
    SessionManager :=
  match mapGet m.subagents session_id with
  | some children =>
    { m with
      sessions := children.foldl (fun ss c => mapDelete ss c) m.sessions
      subagents := mapDelete m.subagents session_id }
  | none => m

/-- `SessionManager.removeSession`: prune the session from its parent's
subagent set, delete its recorded subagents, then drop the session itself. -/
def SessionManager.removeSession (m : SessionManager) (session_id : String) :
    SessionManager :=
  match mapGet m.sessions session_id with
  | none => m
  | some session =>
    -- remove from parent's subagent list
    let m1 := m.pruneFromParent session_id session
    -- remove any subagents of this session
    let m2 := m1.deleteSubagents session_id
    { m2 with sessions := mapDelete m2.sessions session_id }

/-- `SessionManager.getAllSessions`. -/
def SessionManager.getAllSessions (m : SessionManager) : List SMSession :=
  mapValues m.sessions

/-- `SessionManager.getSubagents`. -/
def SessionManager.getSubagents (m : SessionManager) (session_id : String) :
    List String :=
  (mapGet m.subagents session_id).getD []

/-! ### `client/js/EventScheduler.js` -/

/-- The event record consumed by the scheduler: its `session_id`, its `type`
(`etype` here), an opaque tag standing for the rest of the payload, and the
`_combinedCount` bookkeeping field added when pulses coalesce. -/
structure EventData : Type where
  session_id : String
  etype : String
  tag : Nat
  combinedCount : Option Nat
  deriving DecidableEq, Repr

/-- The `EventPriority` table with the `?? Priority.NORMAL` fallback
(`IMMEDIATE = 0`, `HIGH = 1`, `NORMAL = 2`, `LOW = 3`). -/
def eventPriority : String → Nat
  | "create" => 0
  | "end" => 0
  | "tool_start" => 1
  | "tool_end" => 1
  | "state" => 2
  | "pulse" => 3
  | "dim" => 3
  | _ => 2

/-- Timing parameters (`Config` in the source), in milliseconds. -/
def Config.minEventInterval : Int := 80
def Config.stateCoalesceWindow : Int := 100
def Config.pulseCoalesceWindow : Int := 150
def Config.maxQueueAge : Int := 2000

/-- An entry of the per-session `events` array. -/
structure QEntry : Type where
  data : EventData
  priority : Nat
  timestamp : Int
  deriving DecidableEq, Repr

/-- Stable insertion used to model `events.sort((a, b) => a.priority - b.priority)`
(JS `Array.prototype.sort` is stable): insert after all entries of smaller
or equal priority. -/
def insertAfterEq (x : QEntry) : List QEntry → List QEntry
  | [] => [x]
  | y :: ys => if y.priority ≤ x.priority then y :: insertAfterEq x ys else x :: y :: ys

/-- Stable sort by priority. -/
def sortByPriority (l : List QEntry) : List QEntry :=
  l.foldl (fun acc x => insertAfterEq x acc) []

/-- The per-session queue state (`class SessionQueue`). -/
structure SessionQueue : Type where
  sessionId : String
  events : List QEntry
  lastProcessTime : Int
  pendingState : Option EventData
  pendingStateTime : Int
  pendingPulse : Option EventData
  pendingPulseTime : Int
  deriving DecidableEq, Repr

/-- A freshly constructed `SessionQueue`. -/
def SessionQueue.fresh (sessionId : String) : SessionQueue :=
  { sessionId := sessionId
    events := []
    lastProcessTime := 0
    pendingState := none
    pendingStateTime := 0
    pendingPulse := none
    pendingPulseTime := 0 }

/-- `SessionQueue.enqueue` (`now` is `performance.now()`). -/
def SessionQueue.enqueue (q : SessionQueue) (eventData : EventData)
    (priority : Nat) (now : Int) : SessionQueue :=
  if eventData.etype = "state" then
    if q.pendingState.isSome ∧ now - q.pendingStateTime < Config.stateCoalesceWindow then
      -- replace pending state with the newer one (window start preserved)
      { q with pendingState := some eventData }
    else
      -- start a new coalescing window
      { q with pendingState := some eventData, pendingStateTime := now }
  else if eventData.etype = "pulse" then
    match q.pendingPulse with
    | some p =>
      if now - q.pendingPulseTime < Config.pulseCoalesceWindow then
        { q with pendingPulse := some { p with combinedCount := some (p.combinedCount.getD 1 + 1) } }
      else
        { q with pendingPulse := some { eventData with combinedCount := some 1 }
                 pendingPulseTime := now }
    | none =>
      { q with pendingPulse := some { eventData with combinedCount := some 1 }
               pendingPulseTime := now }
  else
    let events1 :=
      if eventData.etype = "dim" then q.events.filter (fun en => en.data.etype ≠ "dim")
      else q.events
    let entry : QEntry := { data := eventData, priority := priority, timestamp := now }
    { q with events := sortByPriority (events1 ++ [entry]) }

/-- `SessionQueue.dequeue`: enforce the per-session minimum inter-delivery
interval, then deliver a matured coalesced state or pulse, else the next
queued entry, recursively skipping entries older than `maxQueueAge`. -/
def SessionQueue.dequeue (q : SessionQueue) (now : Int) :
    Option EventData × SessionQueue :=
  if now - q.lastProcessTime < Config.minEventInterval then (none, q)
  else if q.pendingState.isSome ∧ now - q.pendingStateTime ≥ Config.stateCoalesceWindow then
    (q.pendingState, { q with pendingState := none, lastProcessTime := now })
  else if q.pendingPulse.isSome ∧ now - q.pendingPulseTime ≥ Config.pulseCoalesceWindow then
    (q.pendingPulse, { q with pendingPulse := none, lastProcessTime := now })
  else
    match hev : q.events with
    | [] => (none, q)
    | entry :: rest =>
      if now - entry.timestamp > Config.maxQueueAge then
        SessionQueue.dequeue { q with events := rest } now
      else
        (some entry.data, { q with events := rest, lastProcessTime := now })
  termination_by q.events.length
  decreasing_by rw [hev]; simp

/-- One interaction with a session queue: an enqueue or a drain-loop visit. -/
inductive QOp : Type
  | enq (e : EventData) (t : Int)
  | deq (t : Int)
  deriving DecidableEq, Repr

/-- Time of an interaction. -/
def QOp.time : QOp → Int
  | .enq _ t => t
  | .deq t => t

/-- Run a list of interactions against a queue; enqueues compute the event's
priority exactly as `EventScheduler.enqueue` does.  Returns the final queue
and the chronological list of delivered events with their delivery times. -/
def runOps (q : SessionQueue) : List QOp → SessionQueue × List (EventData × Int)
  | [] => (q, [])
  | QOp.enq e t :: ops => runOps (q.enqueue e (eventPriority e.etype) t) ops
  | QOp.deq t :: ops =>
    let step := q.dequeue t
    let rest := runOps step.2 ops
    (rest.1, (match step.1 with
              | some ev => [(ev, t)]
              | none => []) ++ rest.2)

/-! ## Claim theorems -/

/-- **C1.** For every session name and text payload, `sendToTmuxSafe` never
passes the payload through a shell-interpreted command line: (a) no shell
evaluation effect ever occurs; (b) every tmux invocation is one of four
fixed argument vectors (list-sessions, load-buffer of the temp file,
paste-buffer, literal Enter), none containing the payload as an argument;
(c) once the temp file is written, its deletion is the final effect
regardless of whether the load/paste/confirm steps succeed or fail; (d) on
the success path the five protocol steps occur in order: verbatim write,
buffer load by argument vector, paste, fixed delay then literal Enter, and
cleanup; (e) the payload reaches exactly one effect, the verbatim temp-file
write.  Hence a payload such as ``; rm -rf /`` with backticks arrives as
literal pasted text, never as an executed command. -/
theorem sendToTmuxSafe_protocol_safe
    (live : List String) (name text tempFile : String) (loadOk pasteOk enterOk : Bool)
    (hname : validateTmuxName name = Except.ok name) (hlive : name ∈ live) :
    (∀ cmd, TmuxEffect.shellEval cmd ∉
        (sendToTmuxSafe live name text tempFile loadOk pasteOk enterOk).2) ∧
    (∀ args, TmuxEffect.tmuxCmd args ∈
        (sendToTmuxSafe live name text tempFile loadOk pasteOk enterOk).2 →
      args = listSessionsArgs ∨ args = loadBufferArgs tempFile ∨
      args = pasteBufferArgs name ∨ args = sendEnterArgs name) ∧
    ((sendToTmuxSafe live name text tempFile loadOk pasteOk enterOk).2.getLast? =
      some (TmuxEffect.unlinkFile tempFile)) ∧
    (loadOk = true → pasteOk = true → enterOk = true →
      sendToTmuxSafe live name text tempFile loadOk pasteOk enterOk =
        (Except.ok (),
         [TmuxEffect.tmuxCmd listSessionsArgs,
          TmuxEffect.writeFile tempFile text,
          TmuxEffect.tmuxCmd (loadBufferArgs tempFile),
          TmuxEffect.tmuxCmd (pasteBufferArgs name),
          TmuxEffect.sleep 100,
          TmuxEffect.tmuxCmd (sendEnterArgs name),
          TmuxEffect.unlinkFile tempFile])) ∧
    (∀ p c, TmuxEffect.writeFile p c ∈
        (sendToTmuxSafe live name text tempFile loadOk pasteOk enterOk).2 →
      p = tempFile ∧ c = text) := by
  have hmem : ¬ name ∉ live := by simp [hlive]
  cases loadOk <;> cases pasteOk <;> cases enterOk <;>
    simp [sendToTmuxSafe, hname, hmem]

/-- Witness for C1: the hostile payload ``; rm -rf / `echo pwned` `` sent to
live session `s1` exercises the theorem at a concrete input. -/
theorem sendToTmuxSafe_protocol_safe_witness :
    (∀ cmd, TmuxEffect.shellEval cmd ∉
        (sendToTmuxSafe ["s1"] "s1" "; rm -rf / `echo pwned`"
          "/tmp/claudegrid-prompt-00.txt" true true true).2) ∧
    (∀ args, TmuxEffect.tmuxCmd args ∈
        (sendToTmuxSafe ["s1"] "s1" "; rm -rf / `echo pwned`"
          "/tmp/claudegrid-prompt-00.txt" true true true).2 →
      args = listSessionsArgs ∨ args = loadBufferArgs "/tmp/claudegrid-prompt-00.txt" ∨
      args = pasteBufferArgs "s1" ∨ args = sendEnterArgs "s1") ∧
    ((sendToTmuxSafe ["s1"] "s1" "; rm -rf / `echo pwned`"
        "/tmp/claudegrid-prompt-00.txt" true true true).2.getLast? =
      some (TmuxEffect.unlinkFile "/tmp/claudegrid-prompt-00.txt")) ∧
    (true = true → true = true → true = true →
      sendToTmuxSafe ["s1"] "s1" "; rm -rf / `echo pwned`"
          "/tmp/claudegrid-prompt-00.txt" true true true =
        (Except.ok (),
         [TmuxEffect.tmuxCmd listSessionsArgs,
          TmuxEffect.writeFile "/tmp/claudegrid-prompt-00.txt" "; rm -rf / `echo pwned`",
          TmuxEffect.tmuxCmd (loadBufferArgs "/tmp/claudegrid-prompt-00.txt"),
          TmuxEffect.tmuxCmd (pasteBufferArgs "s1"),
          TmuxEffect.sleep 100,
          TmuxEffect.tmuxCmd (sendEnterArgs "s1"),
          TmuxEffect.unlinkFile "/tmp/claudegrid-prompt-00.txt"])) ∧
    (∀ p c, TmuxEffect.writeFile p c ∈
        (sendToTmuxSafe ["s1"] "s1" "; rm -rf / `echo pwned`"
          "/tmp/claudegrid-prompt-00.txt" true true true).2 →
      p = "/tmp/claudegrid-prompt-00.txt" ∧ c = "; rm -rf / `echo pwned`") :=
  sendToTmuxSafe_protocol_safe ["s1"] "s1" "; rm -rf / `echo pwned`"
    "/tmp/claudegrid-prompt-00.txt" true true true (by rfl) (by simp)

/-! ### Map lemmas shared by several claims -/

theorem mapGet_mapSet_self {α : Type} (l : List (String × α)) (k : String) (v : α) :
    mapGet (mapSet l k v) k = some v := by
  induction l with
  | nil => simp [mapSet, mapGet]
  | cons hd tl ih =>
    obtain ⟨k', v'⟩ := hd
    by_cases h : k' = k <;> simp [mapSet, mapGet, h, ih]

theorem mapSet_mapSet {α : Type} (l : List (String × α)) (k : String) (v v' : α) :
    mapSet (mapSet l k v) k v' = mapSet l k v' := by
  induction l with
  | nil => simp [mapSet]
  | cons hd tl ih =>
    obtain ⟨k', w⟩ := hd
    by_cases h : k' = k <;> simp [mapSet, h, ih]

theorem mapGet_mapSet {α : Type} (l : List (String × α)) (k k' : String) (v : α) :
    mapGet (mapSet l k v) k' = if k = k' then some v else mapGet l k' := by
  induction l with
  | nil => simp [mapSet, mapGet]
  | cons hd tl ih =>
    obtain ⟨a, b⟩ := hd
    by_cases hak : a = k
    · subst hak
      by_cases hk' : a = k' <;> simp [mapSet, mapGet, hk']
    · by_cases hk' : a = k'
      · subst hk'
        have : ¬ k = a := fun h => hak h.symm
        simp [mapSet, mapGet, hak, this]
      · simp [mapSet, mapGet, hak, hk', ih]

theorem mapGet_eq_none {α : Type} {l : List (String × α)} {k : String}
    (h : k ∉ mapKeys l) : mapGet l k = none := by
  induction l with
  | nil => rfl
  | cons hd tl ih =>
    obtain ⟨a, b⟩ := hd
    simp only [mapKeys, List.map_cons, List.mem_cons, not_or] at h
    have hak : a ≠ k := fun heq => h.1 heq.symm
    simpa [mapGet, hak] using ih (by simpa [mapKeys] using h.2)

theorem mapGet_mapDelete_self {α : Type} {l : List (String × α)} {k : String}
    (hnd : (mapKeys l).Nodup) : mapGet (mapDelete l k) k = none := by
  induction l with
  | nil => rfl
  | cons hd tl ih =>
    obtain ⟨a, b⟩ := hd
    simp only [mapKeys, List.map_cons, List.nodup_cons] at hnd
    by_cases hak : a = k
    · subst hak
      simp only [mapDelete, if_pos rfl]
      exact mapGet_eq_none (by simpa [mapKeys] using hnd.1)
    · simpa [mapDelete, mapGet, hak] using ih (by simpa [mapKeys] using hnd.2)

theorem mem_mapDelete {α : Type} {l : List (String × α)} {k : String} {p : String × α}
    (hnd : (mapKeys l).Nodup) (hp : p ∈ mapDelete l k) : p ∈ l ∧ p.1 ≠ k := by
  induction l with
  | nil => simp [mapDelete] at hp
  | cons hd tl ih =>
    obtain ⟨a, b⟩ := hd
    simp only [mapKeys, List.map_cons, List.nodup_cons] at hnd
    by_cases hak : a = k
    · subst hak
      simp only [mapDelete, if_pos rfl] at hp
      refine ⟨List.mem_cons_of_mem _ hp, fun hpk => ?_⟩
      exact hnd.1 (by simpa [mapKeys, hpk] using List.mem_map_of_mem Prod.fst hp)
    · simp only [mapDelete, if_neg hak] at hp
      rcases List.mem_cons.mp hp with h | h
      · subst h
        exact ⟨List.mem_cons_self _ _, hak⟩
      · obtain ⟨h1, h2⟩ := ih (by simpa [mapKeys] using hnd.2) h
        exact ⟨List.mem_cons_of_mem _ h1, h2⟩

/-- **C9.** For every `(externalId, managedId)` pair whose managed session
exists, calling `linkClaudeSession` twice with the same pair produces the
same registry state as calling it once. -/
theorem linkClaudeSession_idempotent (st : Store) (cid mid : String)
    (h : (st.get mid).isSome) :
    (st.linkClaudeSession cid mid).linkClaudeSession cid mid =
      st.linkClaudeSession cid mid := by
  obtain ⟨s, hs⟩ := Option.isSome_iff_exists.mp h
  have hs' : mapGet st.sessions mid = some s := hs
  simp only [Store.linkClaudeSession, hs', mapGet_mapSet_self, mapSet_mapSet]

/-- Witness for C9 at a concrete one-session registry. -/
theorem linkClaudeSession_idempotent_witness :
    ((Store.mk
        [("m1", { id := "m1", name := "S", directory := "/d", tmuxSession := "t1",
                  state := SessionState.idle, claudeSessionId := none,
                  createdAt := 0, lastActivity := 0 })] []).get "m1").isSome ∧
    ((Store.mk
        [("m1", { id := "m1", name := "S", directory := "/d", tmuxSession := "t1",
                  state := SessionState.idle, claudeSessionId := none,
                  createdAt := 0, lastActivity := 0 })]
        []).linkClaudeSession "ext1" "m1").linkClaudeSession "ext1" "m1" =
      (Store.mk
        [("m1", { id := "m1", name := "S", directory := "/d", tmuxSession := "t1",
                  state := SessionState.idle, claudeSessionId := none,
                  createdAt := 0, lastActivity := 0 })]
        []).linkClaudeSession "ext1" "m1" :=
  ⟨by rfl, linkClaudeSession_idempotent _ "ext1" "m1" (by rfl)⟩

/-! ### Store-operation framing lemmas -/

theorem observedSessions_update (st : Store) (id : String)
    (patch : ManagedSession → ManagedSession) (now : Int) :
    (st.update id patch now).observedSessions = st.observedSessions := by
  unfold Store.update
  split <;> rfl

theorem observedSessions_managedStateUpdate (st : Store) (id : String)
    (hook : Option String) (now : Int) :
    (managedStateUpdate st id hook now).observedSessions = st.observedSessions := by
  unfold managedStateUpdate Store.setState
  split <;> first | rfl | apply observedSessions_update

theorem observedSessions_linkClaudeSession (st : Store) (cid mid : String) :
    (st.linkClaudeSession cid mid).observedSessions = st.observedSessions := by
  unfold Store.linkClaudeSession
  split <;> rfl

theorem get_update_claudeSessionId (st : Store) (id k : String)
    (patch : ManagedSession → ManagedSession) (now : Int)
    (hp : ∀ s, (patch s).claudeSessionId = s.claudeSessionId) :
    ((st.update id patch now).get k).map (fun s => s.claudeSessionId) =
      (st.get k).map (fun s => s.claudeSessionId) := by
  unfold Store.update Store.get
  cases hg : mapGet st.sessions id with
  | none => rfl
  | some s =>
    simp only [mapGet_mapSet]
    by_cases hik : id = k
    · subst hik
      simp [hg, hp]
    · simp [hik]

theorem get_managedStateUpdate_claudeSessionId (st : Store) (id : String)
    (hook : Option String) (now : Int) (k : String) :
    ((managedStateUpdate st id hook now).get k).map (fun s => s.claudeSessionId) =
      (st.get k).map (fun s => s.claudeSessionId) := by
  unfold managedStateUpdate Store.setState
  split <;> first
    | rfl
    | exact get_update_claudeSessionId _ _ _ _ _ (fun s => rfl)

/-! ### The auto-link path of the hook-ingress handler (claim C8) -/

/-- Shape of the `/api/events` handler's result on the auto-link path: a
truthy string session id, a truthy `cwd` matched by an unlinked managed
session, and an existing observed record for the external id. -/
theorem eventsEndpoint_autolink_eq
    (st : Store) (e : RawEvent) (now : Int) (sid c : String) (m : ManagedSession)
    (h1 : e.session_id = some (JsVal.str sid)) (h2 : sid ≠ "")
    (h3 : e.cwd = some c) (h4 : c ≠ "")
    (h5 : st.findUnlinkedByDirectory c = some m)
    (h6 : isObservedEntry (st.findByClaudeSessionId sid) = true) :
    eventsEndpoint st e now =
      { store := managedStateUpdate ((st.linkClaudeSession sid m.id).removeObserved sid)
                   m.id e.hook_event_name now
        status := 200
        rawBroadcast := true } := by
  simp [eventsEndpoint, h1, h2, h3, h4, h5, h6, fieldTruthy, JsVal.truthy, strOptTruthy]

/-- **C8 (amended).**  Once an external session id is linked to a managed
session **via the auto-link heuristic of the hook-ingress handler**, an
existing observed record for that external id is deleted from the registry,
no longer appears in session listings, and the external id is carried by
the managed record.  (Via the explicit link endpoint the observed record is
*not* deleted — see the counterexample.) -/
theorem eventsEndpoint_autolink_subsumes_observed
    (st : Store) (e : RawEvent) (now : Int) (sid c : String) (m : ManagedSession)
    (h1 : e.session_id = some (JsVal.str sid)) (h2 : sid ≠ "")
    (h3 : e.cwd = some c) (h4 : c ≠ "")
    (h5 : st.findUnlinkedByDirectory c = some m)
    (h6 : isObservedEntry (st.findByClaudeSessionId sid) = true)
    (h7 : mapGet st.sessions m.id = some m)
    (h8 : (mapKeys st.observedSessions).Nodup)
    (h9 : ∀ p ∈ st.observedSessions, (p.2).claudeSessionId = p.1) :
    (eventsEndpoint st e now).status = 200 ∧
    ((eventsEndpoint st e now).store).getObserved sid = none ∧
    (((eventsEndpoint st e now).store).get m.id).map (fun s => s.claudeSessionId) =
      some (some sid) ∧
    (∀ o, StoreEntry.observed o ∈ ((eventsEndpoint st e now).store).getAll →
      o.claudeSessionId ≠ sid) := by
  rw [eventsEndpoint_autolink_eq st e now sid c m h1 h2 h3 h4 h5 h6]
  have hobs :
      (managedStateUpdate ((st.linkClaudeSession sid m.id).removeObserved sid)
          m.id e.hook_event_name now).observedSessions =
        mapDelete st.observedSessions sid := by
    rw [observedSessions_managedStateUpdate]
    show mapDelete (st.linkClaudeSession sid m.id).observedSessions sid = _
    rw [observedSessions_linkClaudeSession]
  refine ⟨rfl, ?_, ?_, ?_⟩
  · show mapGet (managedStateUpdate _ _ _ _).observedSessions sid = none
    rw [hobs]
    exact mapGet_mapDelete_self h8
  · rw [get_managedStateUpdate_claudeSessionId]
    show (mapGet ((st.linkClaudeSession sid m.id).sessions) m.id).map _ = _
    unfold Store.linkClaudeSession
    rw [h7]
    simp [mapGet_mapSet_self]
  · intro o ho
    unfold Store.getAll at ho
    rcases List.mem_append.mp ho with h | h
    · obtain ⟨_, _, habs⟩ := List.mem_map.mp h
      exact absurd habs (by simp)
    · obtain ⟨o', ho', heq⟩ := List.mem_map.mp h
      have hoo : o' = o := by injection heq
      have ho'' : o' ∈ List.map Prod.snd
          (managedStateUpdate ((st.linkClaudeSession sid m.id).removeObserved sid)
            m.id e.hook_event_name now).observedSessions := ho'
      obtain ⟨p, hp, hpo⟩ := List.mem_map.mp ho''
      rw [hobs] at hp
      obtain ⟨hmem, hne⟩ := mem_mapDelete h8 hp
      have hco : o.claudeSessionId = p.1 := by
        rw [← hoo, ← hpo]
        exact h9 p hmem
      rw [hco]
      exact hne

/-- **C8 counterexample.**  The explicit link operation
(`POST /api/sessions/:id/link`, which calls `linkClaudeSession` and nothing
else) does *not* delete the observed record for the linked external id: on a
registry holding managed session `m1` and an observed record for external id
`ext1`, linking succeeds yet the observed record is still in the registry
and still appears in `getAll`, refuting the claim for the explicit-link
path. -/
theorem linkEndpoint_keeps_observed_counterexample :
    (linkEndpoint
        (Store.mk
          [("m1", { id := "m1", name := "S", directory := "/d", tmuxSession := "t1",
                    state := SessionState.idle, claudeSessionId := none,
                    createdAt := 0, lastActivity := 0 })]
          [("ext1", { id := "ext1", claudeSessionId := "ext1", name := "Observed ext1",
                      directory := some "/d", state := SessionState.working,
                      cwd := some "/d", createdAt := 0, lastActivity := 0 })])
        "m1" (some "ext1")).1 = LinkResponse.okResp ∧
    ((linkEndpoint
        (Store.mk
          [("m1", { id := "m1", name := "S", directory := "/d", tmuxSession := "t1",
                    state := SessionState.idle, claudeSessionId := none,
                    createdAt := 0, lastActivity := 0 })]
          [("ext1", { id := "ext1", claudeSessionId := "ext1", name := "Observed ext1",
                      directory := some "/d", state := SessionState.working,
                      cwd := some "/d", createdAt := 0, lastActivity := 0 })])
        "m1" (some "ext1")).2.getObserved "ext1").isSome = true ∧
    StoreEntry.observed
        { id := "ext1", claudeSessionId := "ext1", name := "Observed ext1",
          directory := some "/d", state := SessionState.working,
          cwd := some "/d", createdAt := 0, lastActivity := 0 } ∈
      (linkEndpoint
        (Store.mk
          [("m1", { id := "m1", name := "S", directory := "/d", tmuxSession := "t1",
                    state := SessionState.idle, claudeSessionId := none,
                    createdAt := 0, lastActivity := 0 })]
          [("ext1", { id := "ext1", claudeSessionId := "ext1", name := "Observed ext1",
                      directory := some "/d", state := SessionState.working,
                      cwd := some "/d", createdAt := 0, lastActivity := 0 })])
        "m1" (some "ext1")).2.getAll := by
  refine ⟨rfl, rfl, ?_⟩
  simp [linkEndpoint, Store.get, mapGet, Store.getAll, Store.linkClaudeSession,
    mapSet, mapValues, strOptTruthy]

/-- Witness for the amended C8 theorem: a hook event for external id `ext1`
with `cwd` `/d` auto-links to managed session `m1` and deletes the observed
duplicate. -/
theorem eventsEndpoint_autolink_subsumes_observed_witness :
    (eventsEndpoint
        (Store.mk
          [("m1", { id := "m1", name := "S", directory := "/d", tmuxSession := "t1",
                    state := SessionState.idle, claudeSessionId := none,
                    createdAt := 0, lastActivity := 0 })]
          [("ext1", { id := "ext1", claudeSessionId := "ext1", name := "Observed ext1",
                      directory := some "/d", state := SessionState.working,
                      cwd := some "/d", createdAt := 0, lastActivity := 0 })])
        { session_id := some (JsVal.str "ext1"),
          hook_event_name := some "SessionStart", cwd := some "/d" } 5).status = 200 ∧
    ((eventsEndpoint
        (Store.mk
          [("m1", { id := "m1", name := "S", directory := "/d", tmuxSession := "t1",
                    state := SessionState.idle, claudeSessionId := none,
                    createdAt := 0, lastActivity := 0 })]
          [("ext1", { id := "ext1", claudeSessionId := "ext1", name := "Observed ext1",
                      directory := some "/d", state := SessionState.working,
                      cwd := some "/d", createdAt := 0, lastActivity := 0 })])
        { session_id := some (JsVal.str "ext1"),
          hook_event_name := some "SessionStart", cwd := some "/d" } 5).store).getObserved
      "ext1" = none ∧
    (((eventsEndpoint
        (Store.mk
          [("m1", { id := "m1", name := "S", directory := "/d", tmuxSession := "t1",
                    state := SessionState.idle, claudeSessionId := none,
                    createdAt := 0, lastActivity := 0 })]
          [("ext1", { id := "ext1", claudeSessionId := "ext1", name := "Observed ext1",
                      directory := some "/d", state := SessionState.working,
                      cwd := some "/d", createdAt := 0, lastActivity := 0 })])
        { session_id := some (JsVal.str "ext1"),
          hook_event_name := some "SessionStart", cwd := some "/d" } 5).store).get
      "m1").map (fun s => s.claudeSessionId) = some (some "ext1") := by
  have h := eventsEndpoint_autolink_subsumes_observed
    (Store.mk
      [("m1", { id := "m1", name := "S", directory := "/d", tmuxSession := "t1",
                state := SessionState.idle, claudeSessionId := none,
                createdAt := 0, lastActivity := 0 })]
      [("ext1", { id := "ext1", claudeSessionId := "ext1", name := "Observed ext1",
                  directory := some "/d", state := SessionState.working,
                  cwd := some "/d", createdAt := 0, lastActivity := 0 })])
    { session_id := some (JsVal.str "ext1"),
      hook_event_name := some "SessionStart", cwd := some "/d" } 5
    "ext1" "/d"
    { id := "m1", name := "S", directory := "/d", tmuxSession := "t1",
      state := SessionState.idle, claudeSessionId := none,
      createdAt := 0, lastActivity := 0 }
    rfl (by decide) rfl (by decide) (by rfl) (by rfl) (by rfl)
    (by decide) (by decide)
  exact ⟨h.1, h.2.1, h.2.2.1⟩

/-! ### The send-prompt endpoint on offline sessions (claim C3) -/

/-- **C3 (amended).**  `POST /api/sessions/:id/prompt` performs **no**
offline check: the request reaches the tmux layer regardless of the stored
session state.  For an offline session whose tmux session is not live,
`sendToTmuxSafe`'s existence probe fails and the endpoint answers with a
generic 500 "not found" error — but only after issuing a `tmux
list-sessions` command, so the external tmux process *is* contacted; and if
the tmux session happens to be live while the stored state is `offline`
(e.g. before the five-second health poll catches up), the text is injected
into the pane despite the offline state. -/
theorem promptEndpoint_no_offline_check
    (st : Store) (live : List String) (id : String) (prompt : Option String)
    (tempFile : String) (loadOk pasteOk enterOk : Bool) (now : Int) (s : ManagedSession)
    (hs : st.get id = some s) (hoff : s.state = SessionState.offline)
    (hp : strOptTruthy prompt = true)
    (hname : validateTmuxName s.tmuxSession = Except.ok s.tmuxSession) :
    (s.tmuxSession ∉ live →
      (promptEndpoint st live id prompt tempFile loadOk pasteOk enterOk now).1 =
        PromptResponse.serverError ("Tmux session '" ++ s.tmuxSession ++ "' not found") ∧
      (promptEndpoint st live id prompt tempFile loadOk pasteOk enterOk now).2.2 =
        [TmuxEffect.tmuxCmd listSessionsArgs] ∧
      (promptEndpoint st live id prompt tempFile loadOk pasteOk enterOk now).2.1 = st) ∧
    (s.tmuxSession ∈ live → loadOk = true → pasteOk = true → enterOk = true →
      (promptEndpoint st live id prompt tempFile loadOk pasteOk enterOk now).1 =
        PromptResponse.okResp ∧
      TmuxEffect.tmuxCmd (pasteBufferArgs s.tmuxSession) ∈
        (promptEndpoint st live id prompt tempFile loadOk pasteOk enterOk now).2.2) := by
  constructor
  · intro hnl
    simp [promptEndpoint, hs, hp, sendToTmuxSafe, hname, hnl]
  · intro hl hL hP hE
    subst hL; subst hP; subst hE
    have hmem : ¬ s.tmuxSession ∉ live := by simp [hl]
    simp [promptEndpoint, hs, hp, sendToTmuxSafe, hname, hmem]

/-- **C3 counterexample.**  A managed session whose stored state is
`offline` but whose tmux session is live (the health poll is only eventually
consistent): the send-prompt operation succeeds with 200 and the payload is
pasted into the pane — no Offline error, and the external process is very
much touched.  This refutes the claim that an offline session is never a
target of text injection. -/
theorem promptEndpoint_injects_into_offline_counterexample :
    (promptEndpoint
        (Store.mk
          [("m1", { id := "m1", name := "S", directory := "/d", tmuxSession := "t1",
                    state := SessionState.offline, claudeSessionId := none,
                    createdAt := 0, lastActivity := 0 })] [])
        ["t1"] "m1" (some "hi") "/tmp/claudegrid-prompt-00.txt"
        true true true 7).1 = PromptResponse.okResp ∧
    TmuxEffect.tmuxCmd (pasteBufferArgs "t1") ∈
      (promptEndpoint
        (Store.mk
          [("m1", { id := "m1", name := "S", directory := "/d", tmuxSession := "t1",
                    state := SessionState.offline, claudeSessionId := none,
                    createdAt := 0, lastActivity := 0 })] [])
        ["t1"] "m1" (some "hi") "/tmp/claudegrid-prompt-00.txt"
        true true true 7).2.2 := by
  refine ⟨rfl, ?_⟩
  decide

/-- Witness for the amended C3 theorem, applied at both a dead-tmux and a
live-tmux concrete configuration. -/
theorem promptEndpoint_no_offline_check_witness :
    (promptEndpoint
        (Store.mk
          [("m1", { id := "m1", name := "S", directory := "/d", tmuxSession := "t1",
                    state := SessionState.offline, claudeSessionId := none,
                    createdAt := 0, lastActivity := 0 })] [])
        [] "m1" (some "hi") "/tmp/claudegrid-prompt-00.txt" true true true 7).1 =
      PromptResponse.serverError ("Tmux session '" ++ "t1" ++ "' not found") ∧
    (promptEndpoint
        (Store.mk
          [("m1", { id := "m1", name := "S", directory := "/d", tmuxSession := "t1",
                    state := SessionState.offline, claudeSessionId := none,
                    createdAt := 0, lastActivity := 0 })] [])
        [] "m1" (some "hi") "/tmp/claudegrid-prompt-00.txt" true true true 7).2.2 =
      [TmuxEffect.tmuxCmd listSessionsArgs] ∧
    (promptEndpoint
        (Store.mk
          [("m1", { id := "m1", name := "S", directory := "/d", tmuxSession := "t1",
                    state := SessionState.offline, claudeSessionId := none,
                    createdAt := 0, lastActivity := 0 })] [])
        ["t1"] "m1" (some "hi") "/tmp/claudegrid-prompt-00.txt" true true true 7).1 =
      PromptResponse.okResp := by
  have hdead := promptEndpoint_no_offline_check
    (Store.mk
      [("m1", { id := "m1", name := "S", directory := "/d", tmuxSession := "t1",
                state := SessionState.offline, claudeSessionId := none,
                createdAt := 0, lastActivity := 0 })] [])
    [] "m1" (some "hi") "/tmp/claudegrid-prompt-00.txt" true true true 7
    { id := "m1", name := "S", directory := "/d", tmuxSession := "t1",
      state := SessionState.offline, claudeSessionId := none,
      createdAt := 0, lastActivity := 0 }
    rfl rfl (by decide) (by rfl)
  have hlivecase := promptEndpoint_no_offline_check
    (Store.mk
      [("m1", { id := "m1", name := "S", directory := "/d", tmuxSession := "t1",
                state := SessionState.offline, claudeSessionId := none,
                createdAt := 0, lastActivity := 0 })] [])
    ["t1"] "m1" (some "hi") "/tmp/claudegrid-prompt-00.txt" true true true 7
    { id := "m1", name := "S", directory := "/d", tmuxSession := "t1",
      state := SessionState.offline, claudeSessionId := none,
      createdAt := 0, lastActivity := 0 }
    rfl rfl (by decide) (by rfl)
  exact ⟨(hdead.1 (by decide)).1, (hdead.1 (by decide)).2.1,
    (hlivecase.2 (by decide) rfl rfl rfl).1⟩

/-! ### Hook ingress acknowledgment (claim C4) -/

/-- **C4 (amended).**  `POST /api/events` broadcasts the raw event and
answers 200 for every body whose `session_id` is falsy (absent, null, `0`,
`false`, or the empty string) or a string — i.e. whenever the classification
logic does not throw.  (A truthy non-string `session_id` makes the handler
throw a `TypeError` while logging, so Express answers 500 and nothing is
broadcast — see the counterexample.) -/
theorem eventsEndpoint_acks_when_no_throw (st : Store) (e : RawEvent) (now : Int)
    (h : fieldTruthy e.session_id = false ∨ ∃ s, e.session_id = some (JsVal.str s)) :
    (eventsEndpoint st e now).status = 200 ∧
    (eventsEndpoint st e now).rawBroadcast = true := by
  rcases h with hf | ⟨s, hs⟩
  · simp [eventsEndpoint, hf]
  · by_cases hse : s = ""
    · subst hse
      simp [eventsEndpoint, hs, fieldTruthy, JsVal.truthy]
    · have ht : fieldTruthy e.session_id = true := by
        simp [hs, fieldTruthy, JsVal.truthy, hse]
      simp only [eventsEndpoint, hs, ht, if_true]
      constructor <;> · repeat' split
                        all_goals rfl

/-- **C4 counterexample.**  A body whose `session_id` is the number `123`
(truthy but without a `.slice` method): the handler throws, Express answers
500, and the raw event is not broadcast — the claim's "always 200 and
broadcast" fails. -/
theorem eventsEndpoint_numeric_session_id_counterexample :
    (eventsEndpoint (Store.mk [] [])
        { session_id := some (JsVal.num 123), hook_event_name := some "Stop",
          cwd := none } 0).status = 500 ∧
    (eventsEndpoint (Store.mk [] [])
        { session_id := some (JsVal.num 123), hook_event_name := some "Stop",
          cwd := none } 0).rawBroadcast = false :=
  ⟨rfl, rfl⟩

/-- Witness for the amended C4 theorem at two concrete bodies: one with no
`session_id` and one with a string `session_id`. -/
theorem eventsEndpoint_acks_when_no_throw_witness :
    ((eventsEndpoint (Store.mk [] [])
        { session_id := none, hook_event_name := none, cwd := none } 0).status = 200 ∧
      (eventsEndpoint (Store.mk [] [])
        { session_id := none, hook_event_name := none, cwd := none } 0).rawBroadcast =
        true) ∧
    ((eventsEndpoint (Store.mk [] [])
        { session_id := some (JsVal.str "abc123"), hook_event_name := some "Stop",
          cwd := none } 0).status = 200 ∧
      (eventsEndpoint (Store.mk [] [])
        { session_id := some (JsVal.str "abc123"), hook_event_name := some "Stop",
          cwd := none } 0).rawBroadcast = true) :=
  ⟨eventsEndpoint_acks_when_no_throw (Store.mk [] [])
      { session_id := none, hook_event_name := none, cwd := none } 0
      (Or.inl (by rfl)),
    eventsEndpoint_acks_when_no_throw (Store.mk [] [])
      { session_id := some (JsVal.str "abc123"), hook_event_name := some "Stop",
        cwd := none } 0
      (Or.inr ⟨"abc123", rfl⟩)⟩

/-! ### Waiting state vs. outstanding prompts (claim C2) -/

/-- **C2 (amended).**  Entry into `waiting` does record an outstanding
prompt: whenever `checkSessionForPermission` emits a `permission-detected`
signal it simultaneously sets the session's state to `waiting` and stores
the prompt signature for that session, so immediately after the transition
the outstanding-prompt set for the session is non-empty.  The biconditional
of the original claim does not hold over time, however: a later poll whose
captured output no longer matches a prompt pattern clears the signature
while leaving the session in `waiting` (see the counterexample). -/
theorem checkSessionForPermission_waiting_records_prompt
    (st : Store) (prompts : SentPrompts) (session : ManagedSession) (output : String)
    (now : Int) (sig : PermSignal)
    (hsig : (checkSessionForPermission st prompts session output now).2.2 = some sig) :
    (checkSessionForPermission st prompts session output now).1 =
      st.setState session.id SessionState.waiting now ∧
    (mapGet (checkSessionForPermission st prompts session output now).2.1
      session.id).isSome = true := by
  unfold checkSessionForPermission at hsig ⊢
  by_cases hpp : hasPermissionPrompt output
  · simp only [hpp, not_true_eq_false, if_false] at hsig ⊢
    by_cases hsent :
        mapGet prompts session.id =
          some (hashString (joinLines
            ((splitLines output).drop ((splitLines output).length - 10))))
    · simp [hsent] at hsig
    · simp [hsent, mapGet_mapSet_self]
  · simp [hpp] at hsig

/-- **C2 counterexample.**  A reachable detector state with `state = waiting`
and an empty outstanding-prompt set: poll 1 sees a permission prompt (the
session enters `waiting` and the signature is recorded); poll 2 captures
output with no prompt pattern, which deletes the signature but leaves the
state at `waiting`.  This refutes `state = waiting ⇔ prompt set non-empty`. -/
theorem permission_waiting_empty_prompts_counterexample :
    ((checkSessionForPermission
        (checkSessionForPermission
          (Store.mk
            [("m1", { id := "m1", name := "S", directory := "/d", tmuxSession := "t1",
                      state := SessionState.idle, claudeSessionId := none,
                      createdAt := 0, lastActivity := 0 })] [])
          [] { id := "m1", name := "S", directory := "/d", tmuxSession := "t1",
               state := SessionState.idle, claudeSessionId := none,
               createdAt := 0, lastActivity := 0 }
          "Do you want to proceed? (y/n)" 1).1
        (checkSessionForPermission
          (Store.mk
            [("m1", { id := "m1", name := "S", directory := "/d", tmuxSession := "t1",
                      state := SessionState.idle, claudeSessionId := none,
                      createdAt := 0, lastActivity := 0 })] [])
          [] { id := "m1", name := "S", directory := "/d", tmuxSession := "t1",
               state := SessionState.idle, claudeSessionId := none,
               createdAt := 0, lastActivity := 0 }
          "Do you want to proceed? (y/n)" 1).2.1
        { id := "m1", name := "S", directory := "/d", tmuxSession := "t1",
          state := SessionState.waiting, claudeSessionId := none,
          createdAt := 0, lastActivity := 1 }
        "$ done" 2).1.get "m1").map (fun s => s.state) = some SessionState.waiting ∧
    (checkSessionForPermission
        (checkSessionForPermission
          (Store.mk
            [("m1", { id := "m1", name := "S", directory := "/d", tmuxSession := "t1",
                      state := SessionState.idle, claudeSessionId := none,
                      createdAt := 0, lastActivity := 0 })] [])
          [] { id := "m1", name := "S", directory := "/d", tmuxSession := "t1",
               state := SessionState.idle, claudeSessionId := none,
               createdAt := 0, lastActivity := 0 }
          "Do you want to proceed? (y/n)" 1).1
        (checkSessionForPermission
          (Store.mk
            [("m1", { id := "m1", name := "S", directory := "/d", tmuxSession := "t1",
                      state := SessionState.idle, claudeSessionId := none,
                      createdAt := 0, lastActivity := 0 })] [])
          [] { id := "m1", name := "S", directory := "/d", tmuxSession := "t1",
               state := SessionState.idle, claudeSessionId := none,
               createdAt := 0, lastActivity := 0 }
          "Do you want to proceed? (y/n)" 1).2.1
        { id := "m1", name := "S", directory := "/d", tmuxSession := "t1",
          state := SessionState.waiting, claudeSessionId := none,
          createdAt := 0, lastActivity := 1 }
        "$ done" 2).2.1 = [] := by
  decide

/-- Witness for the amended C2 theorem at a concrete prompt capture. -/
theorem checkSessionForPermission_waiting_records_prompt_witness :
    (checkSessionForPermission
        (Store.mk
          [("m1", { id := "m1", name := "S", directory := "/d", tmuxSession := "t1",
                    state := SessionState.idle, claudeSessionId := none,
                    createdAt := 0, lastActivity := 0 })] [])
        [] { id := "m1", name := "S", directory := "/d", tmuxSession := "t1",
             state := SessionState.idle, claudeSessionId := none,
             createdAt := 0, lastActivity := 0 }
        "Do you want to proceed? (y/n)" 1).1 =
      (Store.mk
        [("m1", { id := "m1", name := "S", directory := "/d", tmuxSession := "t1",
                  state := SessionState.idle, claudeSessionId := none,
                  createdAt := 0, lastActivity := 0 })] []).setState
        "m1" SessionState.waiting 1 ∧
    (mapGet
      (checkSessionForPermission
        (Store.mk
          [("m1", { id := "m1", name := "S", directory := "/d", tmuxSession := "t1",
                    state := SessionState.idle, claudeSessionId := none,
                    createdAt := 0, lastActivity := 0 })] [])
        [] { id := "m1", name := "S", directory := "/d", tmuxSession := "t1",
             state := SessionState.idle, claudeSessionId := none,
             createdAt := 0, lastActivity := 0 }
        "Do you want to proceed? (y/n)" 1).2.1 "m1").isSome = true :=
  checkSessionForPermission_waiting_records_prompt
    (Store.mk
      [("m1", { id := "m1", name := "S", directory := "/d", tmuxSession := "t1",
                state := SessionState.idle, claudeSessionId := none,
                createdAt := 0, lastActivity := 0 })] [])
    [] { id := "m1", name := "S", directory := "/d", tmuxSession := "t1",
         state := SessionState.idle, claudeSessionId := none,
         createdAt := 0, lastActivity := 0 }
    "Do you want to proceed? (y/n)" 1
    { sessionId := "m1", text := "Do you want to proceed? (y/n)",
      options := [{ number := "y", label := "Yes" }, { number := "n", label := "No" }] }
    (by decide)

/-! ### Tool-invocation bookkeeping (claim C5)

Spec-side observation language for sequences of `PreToolUse`/`PostToolUse`
events delivered to one session. -/

/-- A tool-lifecycle event for a single session: invocation (`pre`) with an
invocation id and tool name, or completion (`post`) with the blocked flag. -/
inductive ToolEv : Type
  | pre (id : String) (name : Option String)
  | post (id : String) (blocked : Bool)
  deriving DecidableEq, Repr

/-- The hook-event body carrying a tool event for session `sid`. -/
def ToolEv.toEvent (sid : String) : ToolEv → SMEvent
  | .pre i n =>
    { session_id := some sid, hook_event_name := some "PreToolUse",
      parent_session_id := none, tool_use_id := some i, tool_name := n,
      tool_use_blocked := false, notification_type := none, etype := none,
      notification_id := none }
  | .post i b =>
    { session_id := some sid, hook_event_name := some "PostToolUse",
      parent_session_id := none, tool_use_id := some i, tool_name := none,
      tool_use_blocked := b, notification_type := none, etype := none,
      notification_id := none }

/-- Invocation ids of a sequence, in order. -/
def preIds : List ToolEv → List String
  | [] => []
  | .pre i _ :: es => i :: preIds es
  | .post _ _ :: es => preIds es

/-- Completion ids of a sequence, in order. -/
def postIds : List ToolEv → List String
  | [] => []
  | .pre _ _ :: es => postIds es
  | .post i _ :: es => i :: postIds es

/-- Number of completion events whose invocation id was previously invoked
(`seen` holds the ids invoked so far). -/
def prevInvokedCompletions (seen : List String) : List ToolEv → Nat
  | [] => 0
  | .pre i _ :: es => prevInvokedCompletions (seen ++ [i]) es
  | .post i _ :: es => (if i ∈ seen then 1 else 0) + prevInvokedCompletions seen es

/-- The effect of one tool event on the set of in-flight invocation ids,
mirroring `activeTools.set` / `activeTools.delete` with the JS truthiness
guard on `tool_use_id`. -/
def toolKeysStep (ks : List String) : ToolEv → List String
  | .pre i _ => if i = "" then ks else if i ∈ ks then ks else ks ++ [i]
  | .post i _ => if i = "" then ks else ks.erase i

/-- Iterated `toolKeysStep`. -/
def toolKeys (ks : List String) (es : List ToolEv) : List String :=
  es.foldl toolKeysStep ks

/-- Process a timed sequence of tool events for session `sid` through
`SessionManager.handleEvent`. -/
def processToolEvents (m : SessionManager) (sid : String) :
    List (ToolEv × Int) → SessionManager
  | [] => m
  | p :: evs => processToolEvents (m.handleEvent (p.1.toEvent sid) p.2).1 sid evs

/-- The in-flight invocation-id set of session `sid` (empty when the
session does not exist). -/
def inflightKeys (m : SessionManager) (sid : String) : List String :=
  match mapGet m.sessions sid with
  | some s => mapKeys s.activeTools
  | none => []

/-- The full in-flight tool map of session `sid`. -/
def inflightTools (m : SessionManager) (sid : String) : List (String × ToolInfo) :=
  match mapGet m.sessions sid with
  | some s => s.activeTools
  | none => []

/-- Well-formedness of a tool-event sequence as assumed by the claim:
pairwise-distinct truthy invocation ids and pairwise-distinct truthy
completion ids. -/
def ToolSeqWF (es : List ToolEv) : Prop :=
  (preIds es).Nodup ∧ (postIds es).Nodup ∧
  (∀ i ∈ preIds es, i ≠ "") ∧ (∀ i ∈ postIds es, i ≠ "")

instance (es : List ToolEv) : Decidable (ToolSeqWF es) := by
  unfold ToolSeqWF
  infer_instance

theorem mapKeys_nil {α : Type} : mapKeys ([] : List (String × α)) = [] := rfl

theorem mapKeys_cons {α : Type} (p : String × α) (tl : List (String × α)) :
    mapKeys (p :: tl) = p.1 :: mapKeys tl := rfl

theorem mapKeys_mapSet {α : Type} (l : List (String × α)) (k : String) (v : α) :
    mapKeys (mapSet l k v) =
      if k ∈ mapKeys l then mapKeys l else mapKeys l ++ [k] := by
  induction l with
  | nil => simp [mapSet, mapKeys_nil, mapKeys_cons]
  | cons hd tl ih =>
    obtain ⟨a, b⟩ := hd
    by_cases hak : a = k
    · subst hak
      simp [mapSet, mapKeys_cons]
    · have hka : ¬ k = a := fun h => hak h.symm
      by_cases hkm : k ∈ mapKeys tl <;>
        simp [mapSet, hak, mapKeys_cons, List.mem_cons, hka, hkm, ih]

theorem mapKeys_mapDelete {α : Type} (l : List (String × α)) (k : String) :
    mapKeys (mapDelete l k) = (mapKeys l).erase k := by
  induction l with
  | nil => simp [mapDelete, mapKeys_nil]
  | cons hd tl ih =>
    obtain ⟨a, b⟩ := hd
    by_cases hak : a = k
    · subst hak
      simp [mapDelete, mapKeys_cons]
    · have hba : ¬ (a == k) = true := by simpa using hak
      simp only [mapDelete, hak, if_false, mapKeys_cons]
      rw [List.erase_cons_tail hba, ih]

theorem mapDelete_of_not_mem {α : Type} {l : List (String × α)} {k : String}
    (h : k ∉ mapKeys l) : mapDelete l k = l := by
  induction l with
  | nil => rfl
  | cons hd tl ih =>
    obtain ⟨a, b⟩ := hd
    simp only [mapKeys, List.map_cons, List.mem_cons, not_or] at h
    have hak : a ≠ k := fun heq => h.1 heq.symm
    simp [mapDelete, hak, ih (by simpa [mapKeys] using h.2)]

/-- Balance invariant for `toolKeys`: processing a well-formed tail from a
state where the in-flight set is exactly `seen` minus `posted` keeps the
count of in-flight ids plus effective completions equal to the count of
invocations. -/
theorem toolKeys_balance (es : List ToolEv) :
    ∀ (ks seen posted : List String),
      ks.Nodup → posted.Nodup →
      (preIds es).Nodup → (postIds es).Nodup →
      (∀ i ∈ preIds es, i ≠ "") → (∀ i ∈ postIds es, i ≠ "") →
      (∀ i ∈ preIds es, i ∉ seen) → (∀ i ∈ postIds es, i ∉ posted) →
      (∀ j, j ∈ ks ↔ j ∈ seen ∧ j ∉ posted) →
      (toolKeys ks es).length + prevInvokedCompletions seen es =
        ks.length + (preIds es).length := by
  induction es with
  | nil =>
    intro ks seen posted _ _ _ _ _ _ _ _ _
    simp [toolKeys, prevInvokedCompletions, preIds]
  | cons ev es ih =>
    intro ks seen posted hksnd hpostednd hprend hpostnd hpre1 hpost1 hfresh hnotposted hinv
    cases ev with
    | pre i n =>
      have hprecons : (i :: preIds es).Nodup := by simpa [preIds] using hprend
      have hi : i ≠ "" := hpre1 i (by simp [preIds])
      have hifresh : i ∉ seen := hfresh i (by simp [preIds])
      have hik : i ∉ ks := fun hmem => hifresh ((hinv i).mp hmem).1
      have hstep : toolKeysStep ks (ToolEv.pre i n) = ks ++ [i] := by
        simp [toolKeysStep, hi, hik]
      have hprend' : (preIds es).Nodup := (List.nodup_cons.mp hprecons).2
      have hiprenotin : i ∉ preIds es := (List.nodup_cons.mp hprecons).1
      have hinv' : ∀ j, j ∈ ks ++ [i] ↔ j ∈ seen ++ [i] ∧ j ∉ posted.erase i := by
        intro j
        by_cases hji : j = i
        · subst hji
          constructor
          · intro _
            refine ⟨by simp, fun hjme => ?_⟩
            exact (hpostednd.mem_erase_iff.mp hjme).1 rfl
          · intro _
            simp
        · simp only [List.mem_append, List.mem_singleton, hji, or_false]
          constructor
          · intro hj
            obtain ⟨hs1, hp1⟩ := (hinv j).mp hj
            exact ⟨hs1, fun hm => hp1 (hpostednd.mem_erase_iff.mp hm).2⟩
          · rintro ⟨hs1, hp1⟩
            refine (hinv j).mpr ⟨hs1, fun hp2 => hp1 ?_⟩
            exact hpostednd.mem_erase_iff.mpr ⟨hji, hp2⟩
      have hrec := ih (ks ++ [i]) (seen ++ [i]) (posted.erase i)
        (by simp [List.nodup_append, hksnd, hik])
        (hpostednd.erase i)
        hprend'
        (by simpa [postIds] using hpostnd)
        (fun j hj => hpre1 j (by simp [preIds, hj]))
        (fun j hj => hpost1 j (by simpa [postIds] using hj))
        (fun j hj => by
          have hjne : j ≠ i := fun heq => hiprenotin (heq ▸ hj)
          have hjf := hfresh j (by simp [preIds, hj])
          simp [hjf, hjne])
        (fun j hj => by
          intro hjmem
          exact hnotposted j (by simpa [postIds] using hj)
            ((hpostednd.mem_erase_iff.mp hjmem).2))
        hinv'
      calc (toolKeys ks (ToolEv.pre i n :: es)).length +
              prevInvokedCompletions seen (ToolEv.pre i n :: es)
          = (toolKeys (ks ++ [i]) es).length +
              prevInvokedCompletions (seen ++ [i]) es := by
            simp [toolKeys, hstep, prevInvokedCompletions]
        _ = (ks ++ [i]).length + (preIds es).length := hrec
        _ = ks.length + (preIds (ToolEv.pre i n :: es)).length := by
            simp [preIds]
            omega
    | post i b =>
      have hpostcons : (i :: postIds es).Nodup := by simpa [postIds] using hpostnd
      have hi : i ≠ "" := hpost1 i (by simp [postIds])
      have hinotposted : i ∉ posted := hnotposted i (by simp [postIds])
      have hpostnd' : (postIds es).Nodup := (List.nodup_cons.mp hpostcons).2
      have hipostnotin : i ∉ postIds es := (List.nodup_cons.mp hpostcons).1
      have hinv' : ∀ j, j ∈ ks.erase i ↔ j ∈ seen ∧ j ∉ posted ++ [i] := by
        intro j
        constructor
        · intro hj
          obtain ⟨hjne, hjks⟩ := hksnd.mem_erase_iff.mp hj
          obtain ⟨hjs, hjp⟩ := (hinv j).mp hjks
          exact ⟨hjs, by simp [hjne, hjp]⟩
        · rintro ⟨hjs, hjp⟩
          simp only [List.mem_append, List.mem_singleton, not_or] at hjp
          exact hksnd.mem_erase_iff.mpr ⟨hjp.2, (hinv j).mpr ⟨hjs, hjp.1⟩⟩
      have hrec := ih (ks.erase i) seen (posted ++ [i])
        (hksnd.erase i)
        (by simp [List.nodup_append, hpostednd, hinotposted])
        (by simpa [preIds] using hprend)
        hpostnd'
        (fun j hj => hpre1 j (by simpa [preIds] using hj))
        (fun j hj => hpost1 j (by simp [postIds, hj]))
        (fun j hj => hfresh j (by simpa [preIds] using hj))
        (fun j hj => by
          have hjne : j ≠ i := fun heq => hipostnotin (heq ▸ hj)
          have hjn := hnotposted j (by simp [postIds, hj])
          simp [hjn, hjne])
        hinv'
      by_cases him : i ∈ seen
      · have hiks : i ∈ ks := (hinv i).mpr ⟨him, hinotposted⟩
        have hlen : (ks.erase i).length = ks.length - 1 := by
          simpa using List.length_erase_of_mem hiks
        have hkspos : 1 ≤ ks.length := List.length_pos_of_mem hiks
        calc (toolKeys ks (ToolEv.post i b :: es)).length +
                prevInvokedCompletions seen (ToolEv.post i b :: es)
            = ((toolKeys (ks.erase i) es).length +
                prevInvokedCompletions seen es) + 1 := by
              simp [toolKeys, toolKeysStep, hi, prevInvokedCompletions, him]
              omega
          _ = ((ks.erase i).length + (preIds es).length) + 1 := by rw [hrec]
          _ = ks.length + (preIds (ToolEv.post i b :: es)).length := by
              simp [preIds, hlen]
              omega
      · have hiks : i ∉ ks := fun hmem => him ((hinv i).mp hmem).1
        have herase : ks.erase i = ks := List.erase_of_not_mem hiks
        calc (toolKeys ks (ToolEv.post i b :: es)).length +
                prevInvokedCompletions seen (ToolEv.post i b :: es)
            = (toolKeys (ks.erase i) es).length +
                prevInvokedCompletions seen es := by
              simp [toolKeys, toolKeysStep, hi, prevInvokedCompletions, him]
          _ = (ks.erase i).length + (preIds es).length := hrec
          _ = ks.length + (preIds (ToolEv.post i b :: es)).length := by
              simp [preIds, herase]

set_option maxHeartbeats 1000000 in
/-- After a tool event the session is still registered. -/
theorem handleEvent_tool_isSome (m : SessionManager) (sid : String) (ev : ToolEv)
    (t : Int) (s : SMSession) (hsid : sid ≠ "") (hs : mapGet m.sessions sid = some s) :
    (mapGet ((m.handleEvent (ev.toEvent sid) t).1).sessions sid).isSome = true := by
  cases ev with
  | pre i n =>
    by_cases hi : i = "" <;>
      · simp only [SessionManager.handleEvent, ToolEv.toEvent, strOptTruthy, hsid, hs]
        simp [hsid, hs, hi, mapGet_mapSet_self]
  | post i b =>
    by_cases hi : i = "" <;>
      · simp only [SessionManager.handleEvent, ToolEv.toEvent, strOptTruthy, hsid, hs]
        simp [hsid, hs, hi]
        split <;> simp [mapGet_mapSet_self]

set_option maxHeartbeats 1000000 in
/-- One tool event through `handleEvent`: the in-flight key set of the
session evolves by `toolKeysStep`. -/
theorem inflight_handleEvent_tool (m : SessionManager) (sid : String) (ev : ToolEv)
    (t : Int) (s : SMSession) (hsid : sid ≠ "") (hs : mapGet m.sessions sid = some s) :
    inflightKeys ((m.handleEvent (ev.toEvent sid) t).1) sid =
      toolKeysStep (mapKeys s.activeTools) ev := by
  cases ev with
  | pre i n =>
    by_cases hi : i = "" <;>
      · simp only [SessionManager.handleEvent, ToolEv.toEvent, strOptTruthy, hsid, hs]
        simp [inflightKeys, mapGet_mapSet_self, toolKeysStep, mapKeys_mapSet, hi, hsid, hs]
  | post i b =>
    by_cases hi : i = ""
    · simp only [SessionManager.handleEvent, ToolEv.toEvent, strOptTruthy, hsid, hs]
      simp [inflightKeys, toolKeysStep, hsid, hs, hi]
      split
      · rename_i s' heq
        split at heq <;>
          (rw [mapGet_mapSet_self] at heq
           injection heq with h
           subst h
           simp)
      · rename_i heq
        split at heq <;>
          (rw [mapGet_mapSet_self] at heq
           exact absurd heq (by simp))
    · simp only [SessionManager.handleEvent, ToolEv.toEvent, strOptTruthy, hsid, hs]
      simp [inflightKeys, toolKeysStep, mapKeys_mapDelete, hi, hsid, hs]
      split
      · rename_i s' heq
        split at heq <;>
          (rw [mapGet_mapSet_self] at heq
           injection heq with h
           subst h
           simp [mapKeys_mapDelete])
      · rename_i heq
        split at heq <;>
          (rw [mapGet_mapSet_self] at heq
           exact absurd heq (by simp))

set_option maxHeartbeats 1000000 in
/-- The full in-flight map after a completion event: delete of the
completed id (no-op when the id is falsy). -/
theorem inflightTools_handleEvent_post (m : SessionManager) (sid i : String) (b : Bool)
    (t : Int) (s : SMSession) (hsid : sid ≠ "") (hs : mapGet m.sessions sid = some s) :
    inflightTools ((m.handleEvent (ToolEv.toEvent sid (ToolEv.post i b)) t).1) sid =
      if i = "" then s.activeTools else mapDelete s.activeTools i := by
  by_cases hi : i = "" <;>
    · simp only [SessionManager.handleEvent, ToolEv.toEvent, strOptTruthy, hsid, hs]
      simp [inflightTools, hsid, hs, hi]
      split
      · rename_i s' heq
        split at heq <;>
          (rw [mapGet_mapSet_self] at heq
           injection heq with h
           subst h
           simp)
      · rename_i heq
        split at heq <;>
          (rw [mapGet_mapSet_self] at heq
           exact absurd heq (by simp))

/-- Folding a timed tool-event sequence through `handleEvent` computes
`toolKeys` on the in-flight key set. -/
theorem inflight_processToolEvents (evs : List (ToolEv × Int)) :
    ∀ (m : SessionManager) (sid : String) (s : SMSession), sid ≠ "" →
      mapGet m.sessions sid = some s →
      inflightKeys (processToolEvents m sid evs) sid =
        toolKeys (mapKeys s.activeTools) (evs.map Prod.fst) := by
  induction evs with
  | nil =>
    intro m sid s hsid hs
    simp [processToolEvents, toolKeys, inflightKeys, hs]
  | cons p evs ih =>
    intro m sid s hsid hs
    have hsome := handleEvent_tool_isSome m sid p.1 p.2 s hsid hs
    have hkeys := inflight_handleEvent_tool m sid p.1 p.2 s hsid hs
    obtain ⟨s', hs'⟩ := Option.isSome_iff_exists.mp hsome
    have hks' : mapKeys s'.activeTools = toolKeysStep (mapKeys s.activeTools) p.1 := by
      rw [← hkeys]
      simp [inflightKeys, hs']
    calc inflightKeys (processToolEvents m sid (p :: evs)) sid
        = inflightKeys
            (processToolEvents (m.handleEvent (p.1.toEvent sid) p.2).1 sid evs) sid := rfl
      _ = toolKeys (mapKeys s'.activeTools) (evs.map Prod.fst) := ih _ sid s' hsid hs'
      _ = toolKeys (toolKeysStep (mapKeys s.activeTools) p.1) (evs.map Prod.fst) := by
          rw [hks']
      _ = toolKeys (mapKeys s.activeTools) ((p :: evs).map Prod.fst) := by
          simp [toolKeys]

/-- **C5.** For every session and every sequence of tool-invoked
(`PreToolUse`) / tool-completed (`PostToolUse`) events with distinct truthy
invocation ids: (1) a completion whose invocation id is not in the in-flight
set leaves the in-flight map unchanged (a no-op on the set); (2) starting
from an empty in-flight set, after processing the sequence, the size of the
in-flight set plus the number of completions of previously-invoked ids
equals the number of invocations — equivalently, the size is the number of
invocations minus the number of effective completions and is never
negative (the completion count never exceeds the invocation count). -/
theorem handleEvent_inflight_invariant :
    (∀ (m : SessionManager) (sid i : String) (b : Bool) (t : Int) (s : SMSession),
        sid ≠ "" → mapGet m.sessions sid = some s →
        i ∉ mapKeys s.activeTools →
        inflightTools ((m.handleEvent (ToolEv.toEvent sid (ToolEv.post i b)) t).1) sid =
          s.activeTools) ∧
    (∀ (m : SessionManager) (sid : String) (evs : List (ToolEv × Int)) (s : SMSession),
        sid ≠ "" → mapGet m.sessions sid = some s → s.activeTools = [] →
        ToolSeqWF (evs.map Prod.fst) →
        (inflightKeys (processToolEvents m sid evs) sid).length +
            prevInvokedCompletions [] (evs.map Prod.fst) =
          (preIds (evs.map Prod.fst)).length ∧
        prevInvokedCompletions [] (evs.map Prod.fst) ≤
          (preIds (evs.map Prod.fst)).length) := by
  constructor
  · intro m sid i b t s hsid hs hnot
    rw [inflightTools_handleEvent_post m sid i b t s hsid hs]
    by_cases hi : i = ""
    · simp [hi]
    · simp [hi, mapDelete_of_not_mem hnot]
  · intro m sid evs s hsid hs hempty hwf
    obtain ⟨hprend, hpostnd, hpre1, hpost1⟩ := hwf
    have hkeys0 : mapKeys s.activeTools = [] := by simp [hempty, mapKeys]
    have hinflight := inflight_processToolEvents evs m sid s hsid hs
    rw [hkeys0] at hinflight
    have hbal := toolKeys_balance (evs.map Prod.fst) [] [] []
      (List.nodup_nil) (List.nodup_nil) hprend hpostnd hpre1 hpost1
      (fun i _ => List.not_mem_nil i) (fun i _ => List.not_mem_nil i)
      (fun j => by simp)
    rw [hinflight]
    simp only [List.length_nil, Nat.zero_add] at hbal
    exact ⟨hbal, by omega⟩

/-- Witness for C5: a fresh session processes invoke(`t1`), invoke(`t2`),
complete(`t1`), leaving one in-flight invocation; a completion with an
unknown id is a no-op on the in-flight map. -/
theorem handleEvent_inflight_invariant_witness :
    inflightTools
        ((SessionManager.handleEvent
          (SessionManager.mk
            [("s1", { id := "s1", parent_id := none, state := BitState.neutral,
                      pendingPermissions := [], isDimmed := false, activeTools := [],
                      createdAt := 0, lastActivity := 0 })] [])
          (ToolEv.toEvent "s1" (ToolEv.post "ghost" false)) 9).1) "s1" = [] ∧
    (inflightKeys
        (processToolEvents
          (SessionManager.mk
            [("s1", { id := "s1", parent_id := none, state := BitState.neutral,
                      pendingPermissions := [], isDimmed := false, activeTools := [],
                      createdAt := 0, lastActivity := 0 })] [])
          "s1"
          [(ToolEv.pre "t1" (some "Bash"), 1), (ToolEv.pre "t2" none, 2),
           (ToolEv.post "t1" false, 3)]) "s1").length +
      prevInvokedCompletions []
        ([(ToolEv.pre "t1" (some "Bash"), 1), (ToolEv.pre "t2" none, 2),
          (ToolEv.post "t1" false, 3)].map Prod.fst) =
      (preIds ([(ToolEv.pre "t1" (some "Bash"), 1), (ToolEv.pre "t2" none, 2),
          (ToolEv.post "t1" false, 3)].map Prod.fst)).length := by
  constructor
  · exact handleEvent_inflight_invariant.1
      (SessionManager.mk
        [("s1", { id := "s1", parent_id := none, state := BitState.neutral,
                  pendingPermissions := [], isDimmed := false, activeTools := [],
                  createdAt := 0, lastActivity := 0 })] [])
      "s1" "ghost" false 9
      { id := "s1", parent_id := none, state := BitState.neutral,
        pendingPermissions := [], isDimmed := false, activeTools := [],
        createdAt := 0, lastActivity := 0 }
      (by decide) rfl (by decide)
  · exact (handleEvent_inflight_invariant.2
      (SessionManager.mk
        [("s1", { id := "s1", parent_id := none, state := BitState.neutral,
                  pendingPermissions := [], isDimmed := false, activeTools := [],
                  createdAt := 0, lastActivity := 0 })] [])
      "s1"
      [(ToolEv.pre "t1" (some "Bash"), 1), (ToolEv.pre "t2" none, 2),
       (ToolEv.post "t1" false, 3)]
      { id := "s1", parent_id := none, state := BitState.neutral,
        pendingPermissions := [], isDimmed := false, activeTools := [],
        createdAt := 0, lastActivity := 0 }
      (by decide) rfl rfl (by decide)).1

/-! ### Cascading session removal (claim C10) -/

theorem mapGet_mapDelete_ne {α : Type} (l : List (String × α)) (k k' : String)
    (h : k' ≠ k) : mapGet (mapDelete l k) k' = mapGet l k' := by
  induction l with
  | nil => rfl
  | cons hd tl ih =>
    obtain ⟨a, b⟩ := hd
    by_cases hak : a = k
    · subst hak
      have : ¬ a = k' := fun heq => h (heq.symm)
      simp [mapDelete, mapGet, this]
    · by_cases hak' : a = k' <;> simp [mapDelete, mapGet, hak, hak', ih, h]

theorem mapGet_mapDelete_none {α : Type} (l : List (String × α)) (k c : String)
    (h : mapGet l c = none) : mapGet (mapDelete l k) c = none := by
  induction l with
  | nil => rfl
  | cons hd tl ih =>
    obtain ⟨a, b⟩ := hd
    by_cases hac : a = c
    · subst hac
      simp [mapGet] at h
    · simp only [mapGet, hac, if_false] at h
      by_cases hak : a = k <;> simp [mapDelete, mapGet, hak, hac, ih h, h]

theorem foldl_mapDelete_none {α : Type} (cs : List String) :
    ∀ (l : List (String × α)) (c : String), mapGet l c = none →
      mapGet (cs.foldl (fun ss k => mapDelete ss k) l) c = none := by
  induction cs with
  | nil => intro l c h; exact h
  | cons d ds ih =>
    intro l c h
    exact ih (mapDelete l d) c (mapGet_mapDelete_none l d c h)

theorem foldl_mapDelete_nodup {α : Type} (cs : List String) :
    ∀ (l : List (String × α)), (mapKeys l).Nodup →
      (mapKeys (cs.foldl (fun ss k => mapDelete ss k) l)).Nodup := by
  induction cs with
  | nil => intro l h; exact h
  | cons d ds ih =>
    intro l h
    exact ih (mapDelete l d) (by rw [mapKeys_mapDelete]; exact h.erase d)

theorem foldl_mapDelete_mem {α : Type} (cs : List String) :
    ∀ (l : List (String × α)) (c : String), (mapKeys l).Nodup → c ∈ cs →
      mapGet (cs.foldl (fun ss k => mapDelete ss k) l) c = none := by
  induction cs with
  | nil => intro l c _ h; simp at h
  | cons d ds ih =>
    intro l c hnd hc
    by_cases hcd : c = d
    · subst hcd
      exact foldl_mapDelete_none ds (mapDelete l c) c (mapGet_mapDelete_self hnd)
    · exact ih (mapDelete l d) c (by rw [mapKeys_mapDelete]; exact hnd.erase d)
        (by rcases List.mem_cons.mp hc with h | h
            · exact absurd h hcd
            · exact h)

theorem mem_foldl_mapDelete {α : Type} (cs : List String) :
    ∀ (l : List (String × α)) (p : String × α), (mapKeys l).Nodup →
      p ∈ cs.foldl (fun ss k => mapDelete ss k) l → p ∈ l ∧ p.1 ∉ cs := by
  induction cs with
  | nil => intro l p _ h; exact ⟨h, by simp⟩
  | cons d ds ih =>
    intro l p hnd hp
    obtain ⟨hp1, hp2⟩ := ih (mapDelete l d) p
      (by rw [mapKeys_mapDelete]; exact hnd.erase d) hp
    obtain ⟨hp3, hp4⟩ := mem_mapDelete hnd hp1
    exact ⟨hp3, by simp [hp4, hp2]⟩

theorem pruneFromParent_sessions (m : SessionManager) (sid : String) (s : SMSession) :
    (m.pruneFromParent sid s).sessions = m.sessions := by
  unfold SessionManager.pruneFromParent
  split
  · dsimp only
    split
    · split <;> rfl
    · rfl
  · rfl

theorem pruneFromParent_subagents_ne (m : SessionManager) (sid : String)
    (s : SMSession) (q : String) (hq : q ≠ s.parent_id.getD "") :
    mapGet (m.pruneFromParent sid s).subagents q = mapGet m.subagents q := by
  unfold SessionManager.pruneFromParent
  split
  · dsimp only
    split
    · split
      · exact mapGet_mapDelete_ne _ _ _ hq
      · rw [mapGet_mapSet, if_neg (fun h => hq h.symm)]
    · rfl
  · rfl

theorem deleteSubagents_of_some (m : SessionManager) (sid : String)
    (cs : List String) (h : mapGet m.subagents sid = some cs) :
    m.deleteSubagents sid =
      { m with
        sessions := cs.foldl (fun ss c => mapDelete ss c) m.sessions
        subagents := mapDelete m.subagents sid } := by
  unfold SessionManager.deleteSubagents
  rw [h]

theorem deleteSubagents_of_none (m : SessionManager) (sid : String)
    (h : mapGet m.subagents sid = none) : m.deleteSubagents sid = m := by
  unfold SessionManager.deleteSubagents
  rw [h]

theorem mapGet_some_mem {α : Type} {l : List (String × α)} {k : String} {v : α}
    (h : mapGet l k = some v) : (k, v) ∈ l := by
  induction l with
  | nil => simp [mapGet] at h
  | cons hd tl ih =>
    obtain ⟨a, b⟩ := hd
    by_cases hak : a = k
    · subst hak
      have hb : b = v := by simpa [mapGet] using h
      subst hb
      exact List.mem_cons_self _ _
    · simp only [mapGet, hak, if_false] at h
      exact List.mem_cons_of_mem _ (ih h)

theorem pruneFromParent_parent_entry (m : SessionManager) (sid : String)
    (s : SMSession) (pp : String) (sib : List String)
    (hnds : (mapKeys m.subagents).Nodup)
    (hpp : s.parent_id = some pp) (hppne : pp ≠ "")
    (hsib : mapGet m.subagents pp = some sib) :
    mapGet (m.pruneFromParent sid s).subagents pp =
      if (sib.erase sid).length = 0 then none else some (sib.erase sid) := by
  have htr : strOptTruthy s.parent_id = true := by simp [hpp, strOptTruthy, hppne]
  unfold SessionManager.pruneFromParent
  rw [htr]
  simp only [if_true, hpp, Option.getD_some, hsib]
  split
  · exact mapGet_mapDelete_self hnds
  · exact mapGet_mapSet_self _ _ _

set_option maxHeartbeats 1000000 in
/-- **C10.** `SessionManager.removeSession` cascades: on a well-formed
manager state (map keys match record ids, subagent sets are duplicate-free,
children are recorded in their parent's subagent set, no self-parenting),
removing a session deletes every recorded subagent of it from the session
map, hence every session whose parent is the removed session; deletes the
removed session itself; prunes the removed session from its parent's
subagent set, dropping that entry when it empties; and afterwards neither
the removed session nor any of its subagents appears in `getAllSessions`. -/
theorem removeSession_cascades (m : SessionManager) (sid : String) (s : SMSession)
    (hs : mapGet m.sessions sid = some s) (hsid : sid ≠ "")
    (hnd : (mapKeys m.sessions).Nodup)
    (hnds : (mapKeys m.subagents).Nodup)
    (hsibs : ∀ q ∈ m.subagents, (q.2 : List String).Nodup)
    (hid : ∀ p ∈ m.sessions, (p.2 : SMSession).id = p.1)
    (hrec : ∀ p ∈ m.sessions, (p.2 : SMSession).parent_id = some sid →
      p.1 ∈ (mapGet m.subagents sid).getD [])
    (hselfp : s.parent_id ≠ some sid) :
    (∀ c ∈ (mapGet m.subagents sid).getD [],
      mapGet (m.removeSession sid).sessions c = none) ∧
    (∀ p ∈ m.sessions, (p.2 : SMSession).parent_id = some sid →
      mapGet (m.removeSession sid).sessions p.1 = none) ∧
    mapGet (m.removeSession sid).sessions sid = none ∧
    (∀ pp sib, s.parent_id = some pp → pp ≠ "" →
      mapGet m.subagents pp = some sib →
      sid ∉ (mapGet (m.removeSession sid).subagents pp).getD [] ∧
      (sib.erase sid = [] → mapGet (m.removeSession sid).subagents pp = none)) ∧
    (∀ x ∈ (m.removeSession sid).getAllSessions,
      x.id ≠ sid ∧ x.id ∉ (mapGet m.subagents sid).getD []) := by
  have hR : m.removeSession sid =
      { m.pruneFromParent sid s |>.deleteSubagents sid with
        sessions := mapDelete ((m.pruneFromParent sid s).deleteSubagents sid).sessions sid } := by
    unfold SessionManager.removeSession
    rw [hs]
  have hm1s : (m.pruneFromParent sid s).sessions = m.sessions :=
    pruneFromParent_sessions m sid s
  have hsidne : sid ≠ s.parent_id.getD "" := by
    cases hpid : s.parent_id with
    | none => simpa using hsid
    | some pp =>
      simp only [Option.getD_some]
      intro heq
      exact hselfp (by rw [hpid, heq])
  have hm1sub : mapGet (m.pruneFromParent sid s).subagents sid = mapGet m.subagents sid :=
    pruneFromParent_subagents_ne m sid s sid hsidne
  -- the session map after the subagent-deletion block
  have hm2s : ((m.pruneFromParent sid s).deleteSubagents sid).sessions =
      ((mapGet m.subagents sid).getD []).foldl (fun ss c => mapDelete ss c) m.sessions := by
    cases hch : mapGet m.subagents sid with
    | none =>
      rw [deleteSubagents_of_none _ _ (hm1sub.trans hch), hm1s]
      rfl
    | some cs =>
      rw [deleteSubagents_of_some _ _ cs (hm1sub.trans hch)]
      simp [hm1s]
  have hm2nd : (mapKeys ((m.pruneFromParent sid s).deleteSubagents sid).sessions).Nodup := by
    rw [hm2s]
    exact foldl_mapDelete_nodup _ _ hnd
  have hca : ∀ c ∈ (mapGet m.subagents sid).getD [],
      mapGet (m.removeSession sid).sessions c = none := by
    intro c hc
    rw [hR]
    show mapGet (mapDelete _ sid) c = none
    apply mapGet_mapDelete_none
    rw [hm2s]
    exact foldl_mapDelete_mem _ _ _ hnd hc
  refine ⟨hca, ?_, ?_, ?_, ?_⟩
  · intro p hp hpar
    exact hca p.1 (hrec p hp hpar)
  · rw [hR]
    exact mapGet_mapDelete_self hm2nd
  · intro pp sib hpp hppne hsib
    have hppsid : pp ≠ sid := fun heq => hselfp (by rw [hpp, heq])
    have hentry : mapGet (m.removeSession sid).subagents pp =
        mapGet (m.pruneFromParent sid s).subagents pp := by
      rw [hR]
      show mapGet ((m.pruneFromParent sid s).deleteSubagents sid).subagents pp = _
      cases hch : mapGet (m.pruneFromParent sid s).subagents sid with
      | none => rw [deleteSubagents_of_none _ _ hch]
      | some cs =>
        rw [deleteSubagents_of_some _ _ cs hch]
        exact mapGet_mapDelete_ne _ _ _ hppsid
    have hval := pruneFromParent_parent_entry m sid s pp sib hnds hpp hppne hsib
    rw [hentry, hval]
    have hsibnd : sib.Nodup := hsibs (pp, sib) (mapGet_some_mem hsib)
    constructor
    · split
      · simp
      · simp only [Option.getD_some]
        intro hmem
        exact (hsibnd.mem_erase_iff.mp hmem).1 rfl
    · intro hempty
      rw [if_pos (by simp [hempty])]
  · intro x hx
    obtain ⟨p, hp, hpx⟩ := List.mem_map.mp hx
    have hp' : p ∈ mapDelete ((m.pruneFromParent sid s).deleteSubagents sid).sessions sid := by
      have : (m.removeSession sid).sessions =
          mapDelete ((m.pruneFromParent sid s).deleteSubagents sid).sessions sid := by
        rw [hR]
      rw [← this]
      exact hp
    obtain ⟨hp1, hp2⟩ := mem_mapDelete hm2nd hp'
    rw [hm2s] at hp1
    obtain ⟨hp3, hp4⟩ := mem_foldl_mapDelete _ _ _ hnd hp1
    have hxid : x.id = p.1 := by rw [← hpx]; exact hid p hp3
    exact ⟨by rw [hxid]; exact hp2, by rw [hxid]; exact hp4⟩

/-- Witness for C10: removing `s1` (child of `p1`, parent of `c1`) deletes
both `s1` and its subagent `c1` from the session map and drops `p1`'s
emptied subagent entry. -/
theorem removeSession_cascades_witness :
    mapGet ((SessionManager.mk
        [("p1", { id := "p1", parent_id := none, state := BitState.neutral,
                  pendingPermissions := [], isDimmed := false, activeTools := [],
                  createdAt := 0, lastActivity := 0 }),
         ("s1", { id := "s1", parent_id := some "p1", state := BitState.neutral,
                  pendingPermissions := [], isDimmed := false, activeTools := [],
                  createdAt := 0, lastActivity := 0 }),
         ("c1", { id := "c1", parent_id := some "s1", state := BitState.neutral,
                  pendingPermissions := [], isDimmed := false, activeTools := [],
                  createdAt := 0, lastActivity := 0 })]
        [("p1", ["s1"]), ("s1", ["c1"])]).removeSession "s1").sessions "c1" = none ∧
    mapGet ((SessionManager.mk
        [("p1", { id := "p1", parent_id := none, state := BitState.neutral,
                  pendingPermissions := [], isDimmed := false, activeTools := [],
                  createdAt := 0, lastActivity := 0 }),
         ("s1", { id := "s1", parent_id := some "p1", state := BitState.neutral,
                  pendingPermissions := [], isDimmed := false, activeTools := [],
                  createdAt := 0, lastActivity := 0 }),
         ("c1", { id := "c1", parent_id := some "s1", state := BitState.neutral,
                  pendingPermissions := [], isDimmed := false, activeTools := [],
                  createdAt := 0, lastActivity := 0 })]
        [("p1", ["s1"]), ("s1", ["c1"])]).removeSession "s1").sessions "s1" = none ∧
    mapGet ((SessionManager.mk
        [("p1", { id := "p1", parent_id := none, state := BitState.neutral,
                  pendingPermissions := [], isDimmed := false, activeTools := [],
                  createdAt := 0, lastActivity := 0 }),
         ("s1", { id := "s1", parent_id := some "p1", state := BitState.neutral,
                  pendingPermissions := [], isDimmed := false, activeTools := [],
                  createdAt := 0, lastActivity := 0 }),
         ("c1", { id := "c1", parent_id := some "s1", state := BitState.neutral,
                  pendingPermissions := [], isDimmed := false, activeTools := [],
                  createdAt := 0, lastActivity := 0 })]
        [("p1", ["s1"]), ("s1", ["c1"])]).removeSession "s1").subagents "p1" = none := by
  have h := removeSession_cascades
    (SessionManager.mk
      [("p1", { id := "p1", parent_id := none, state := BitState.neutral,
                pendingPermissions := [], isDimmed := false, activeTools := [],
                createdAt := 0, lastActivity := 0 }),
       ("s1", { id := "s1", parent_id := some "p1", state := BitState.neutral,
                pendingPermissions := [], isDimmed := false, activeTools := [],
                createdAt := 0, lastActivity := 0 }),
       ("c1", { id := "c1", parent_id := some "s1", state := BitState.neutral,
                pendingPermissions := [], isDimmed := false, activeTools := [],
                createdAt := 0, lastActivity := 0 })]
      [("p1", ["s1"]), ("s1", ["c1"])])
    "s1"
    { id := "s1", parent_id := some "p1", state := BitState.neutral,
      pendingPermissions := [], isDimmed := false, activeTools := [],
      createdAt := 0, lastActivity := 0 }
    rfl (by decide) (by decide) (by decide) (by decide) (by decide) (by decide)
    (by decide)
  exact ⟨h.1 "c1" (by decide), h.2.2.1,
    (h.2.2.2.1 "p1" ["s1"] rfl (by decide) rfl).2 (by decide)⟩

/-! ### Per-session rate limiting (claim C7) -/

theorem enqueue_lastProcessTime (q : SessionQueue) (e : EventData) (p : Nat)
    (t : Int) : (q.enqueue e p t).lastProcessTime = q.lastProcessTime := by
  unfold SessionQueue.enqueue
  split
  · split <;> rfl
  · split
    · split
      · split <;> rfl
      · rfl
    · rfl

/-- `dequeue` facts: a delivery only happens once the minimum inter-delivery
interval has elapsed, and it stamps `lastProcessTime` with the delivery
time; a null result leaves `lastProcessTime` unchanged. -/
theorem dequeue_facts (ev : List QEntry) :
    ∀ (q : SessionQueue), q.events = ev →
      ((q.dequeue now').1.isSome = true →
        Config.minEventInterval ≤ now' - q.lastProcessTime ∧
        (q.dequeue now').2.lastProcessTime = now') ∧
      ((q.dequeue now').1.isSome = false →
        (q.dequeue now').2.lastProcessTime = q.lastProcessTime) := by
  induction ev with
  | nil =>
    intro q hq
    rw [SessionQueue.dequeue]
    split
    · rename_i hlt
      exact ⟨fun h => by simp at h, fun _ => rfl⟩
    · rename_i hlt
      split
      · rename_i hcond
        refine ⟨fun _ => ⟨by omega, rfl⟩, fun h => ?_⟩
        simp at h
        simp [h] at hcond
      · split
        · rename_i hcond
          refine ⟨fun _ => ⟨by omega, rfl⟩, fun h => ?_⟩
          simp at h
          simp [h] at hcond
        · rw [hq]
          exact ⟨fun h => by simp at h, fun _ => rfl⟩
  | cons entry rest ih =>
    intro q hq
    rw [SessionQueue.dequeue]
    split
    · rename_i hlt
      exact ⟨fun h => by simp at h, fun _ => rfl⟩
    · rename_i hlt
      split
      · rename_i hcond
        refine ⟨fun _ => ⟨by omega, rfl⟩, fun h => ?_⟩
        simp at h
        simp [h] at hcond
      · split
        · rename_i hcond
          refine ⟨fun _ => ⟨by omega, rfl⟩, fun h => ?_⟩
          simp at h
          simp [h] at hcond
        · rw [hq]
          dsimp only
          split
          · exact ih { q with events := rest } rfl
          · exact ⟨fun _ => ⟨by omega, rfl⟩, fun h => by simp at h⟩

/-- The chain invariant behind C7: every delivery comes at least
`minEventInterval` after the queue's previous delivery. -/
theorem runOps_chain (ops : List QOp) :
    ∀ (q : SessionQueue),
      List.Chain' (fun a b => Config.minEventInterval ≤ b.2 - a.2) (runOps q ops).2 ∧
      (∀ d ∈ (runOps q ops).2, Config.minEventInterval ≤ d.2 - q.lastProcessTime) := by
  induction ops with
  | nil =>
    intro q
    exact ⟨by simp [runOps], fun d hd => by simp [runOps] at hd⟩
  | cons op ops ih =>
    intro q
    cases op with
    | enq e t =>
      obtain ⟨ha, hb⟩ := ih (q.enqueue e (eventPriority e.etype) t)
      refine ⟨by simpa [runOps] using ha, fun d hd => ?_⟩
      have hd' : d ∈ (runOps (q.enqueue e (eventPriority e.etype) t) ops).2 := by
        simpa [runOps] using hd
      have := hb d hd'
      rwa [enqueue_lastProcessTime] at this
    | deq t =>
      obtain ⟨ha, hb⟩ := ih (q.dequeue t).2
      have hfacts := @dequeue_facts t q.events q rfl
      cases hres : (q.dequeue t).1 with
      | none =>
        have hlp := hfacts.2 (by simp [hres])
        refine ⟨by simpa [runOps, hres] using ha, fun d hd => ?_⟩
        have hd' : d ∈ (runOps (q.dequeue t).2 ops).2 := by
          simpa [runOps, hres] using hd
        have := hb d hd'
        rwa [hlp] at this
      | some ev =>
        obtain ⟨hmin, hlp⟩ := hfacts.1 (by simp [hres])
        have hdel : (runOps q (QOp.deq t :: ops)).2 =
            (ev, t) :: (runOps (q.dequeue t).2 ops).2 := by
          simp [runOps, hres]
        constructor
        · rw [hdel, List.chain'_cons']
          refine ⟨fun b hbd => ?_, ha⟩
          have hbmem : b ∈ (runOps (q.dequeue t).2 ops).2 := List.mem_of_mem_head? hbd
          have := hb b hbmem
          rw [hlp] at this
          exact this
        · intro d hd
          rw [hdel] at hd
          rcases List.mem_cons.mp hd with hd | hd
          · subst hd
            simpa using hmin
          · have := hb d hd
            rw [hlp] at this
            have hcfg : (0 : Int) ≤ Config.minEventInterval := by decide
            omega

/-- **C7.** Per-session rate limiting: `dequeue` returns no event until at
least `minEventInterval` (80ms) has elapsed since that session's previous
delivery, and over any interaction sequence — any burst of `Low` or other
non-Immediate events interleaved with drain ticks — successive deliveries
for the session are spaced at least 80ms apart. -/
theorem sessionQueue_rate_limited :
    (∀ (q : SessionQueue) (now : Int),
      now - q.lastProcessTime < Config.minEventInterval → (q.dequeue now).1 = none) ∧
    (∀ (q : SessionQueue) (ops : List QOp),
      List.Chain' (fun a b => Config.minEventInterval ≤ b.2 - a.2) (runOps q ops).2) := by
  constructor
  · intro q now h
    rw [SessionQueue.dequeue]
    rw [if_pos h]
  · intro q ops
    exact (runOps_chain ops q).1

/-- Witness for C7: a fresh queue refuses delivery 50ms in, and a concrete
burst of `Low` pulse events with drain ticks yields ≥80ms-spaced
deliveries. -/
theorem sessionQueue_rate_limited_witness :
    ((SessionQueue.fresh "s1").dequeue 50).1 = none ∧
    List.Chain' (fun a b => Config.minEventInterval ≤ b.2 - a.2)
      (runOps (SessionQueue.fresh "s1")
        [QOp.enq { session_id := "s1", etype := "pulse", tag := 0, combinedCount := none } 0,
         QOp.enq { session_id := "s1", etype := "pulse", tag := 1, combinedCount := none } 2,
         QOp.enq { session_id := "s1", etype := "pulse", tag := 2, combinedCount := none } 5,
         QOp.deq 10, QOp.deq 90, QOp.deq 200, QOp.deq 210]).2 :=
  ⟨sessionQueue_rate_limited.1 (SessionQueue.fresh "s1") 50 (by decide),
   sessionQueue_rate_limited.2 (SessionQueue.fresh "s1")
     [QOp.enq { session_id := "s1", etype := "pulse", tag := 0, combinedCount := none } 0,
      QOp.enq { session_id := "s1", etype := "pulse", tag := 1, combinedCount := none } 2,
      QOp.enq { session_id := "s1", etype := "pulse", tag := 2, combinedCount := none } 5,
      QOp.deq 10, QOp.deq 90, QOp.deq 200, QOp.deq 210]⟩

/-! ### State-event coalescing (claim C6) -/

/-- The enqueue interactions of an interaction sequence, in order. -/
def opsEnqueues : List QOp → List (EventData × Int)
  | [] => []
  | QOp.enq e t :: ops => (e, t) :: opsEnqueues ops
  | QOp.deq _ :: ops => opsEnqueues ops

theorem exists_enq_of_opsEnqueues_cons {ops : List QOp} {e : EventData} {t : Int}
    {r : List (EventData × Int)} (h : opsEnqueues ops = (e, t) :: r) :
    QOp.enq e t ∈ ops := by
  induction ops with
  | nil => simp [opsEnqueues] at h
  | cons op ops ih =>
    cases op with
    | enq e' t' =>
      simp only [opsEnqueues, List.cons.injEq, Prod.mk.injEq] at h
      obtain ⟨⟨he, ht⟩, _⟩ := h
      subst he
      subst ht
      exact List.mem_cons_self _ _
    | deq t' =>
      simp only [opsEnqueues] at h
      exact List.mem_cons_of_mem _ (ih h)

/-- A queue with nothing pending delivers nothing on a drain-only
interaction sequence. -/
theorem runOps_empty_deqOnly (ops : List QOp) :
    ∀ (q : SessionQueue), opsEnqueues ops = [] →
      q.events = [] → q.pendingState = none → q.pendingPulse = none →
      (runOps q ops).2 = [] := by
  induction ops with
  | nil => intro q _ _ _ _; simp [runOps]
  | cons op ops ih =>
    intro q he hev hps hpp
    cases op with
    | enq e t => simp [opsEnqueues] at he
    | deq t =>
      have hd : q.dequeue t = (none, q) := by
        rw [SessionQueue.dequeue]
        split
        · rfl
        · split
          · rename_i hc
            rw [hps] at hc
            simp at hc
          · split
            · rename_i hc
              rw [hpp] at hc
              simp at hc
            · split
              · rfl
              · rename_i entry rest hcons
                rw [hev] at hcons
                simp at hcons
      have he' : opsEnqueues ops = [] := by simpa [opsEnqueues] using he
      simp [runOps, hd, ih q he' hev hps hpp]

/-- Once the last of the coalesced state events is pending with window start
`t1`, at most one delivery — of exactly that event — occurs over any
drain-only continuation, and it does occur once a drain tick at or after
`t1 + stateCoalesceWindow` arrives. -/
theorem c6_armed (e3 : EventData) (t1 : Int) (ht1 : 0 ≤ t1) :
    ∀ (ops : List QOp) (q : SessionQueue),
      opsEnqueues ops = [] →
      q.events = [] → q.pendingPulse = none →
      q.pendingState = some e3 → q.pendingStateTime = t1 → q.lastProcessTime = 0 →
      ((runOps q ops).2.map Prod.fst = [] ∨ (runOps q ops).2.map Prod.fst = [e3]) ∧
      ((∃ t, QOp.deq t ∈ ops ∧ t1 + Config.stateCoalesceWindow ≤ t) →
        (runOps q ops).2.map Prod.fst = [e3]) := by
  intro ops
  induction ops with
  | nil =>
    intro q _ _ _ _ _ _
    refine ⟨Or.inl (by simp [runOps]), fun hex => ?_⟩
    obtain ⟨t, ht, _⟩ := hex
    simp at ht
  | cons op ops ih =>
    intro q he hev hpp hps hpt hlp
    cases op with
    | enq e t => simp [opsEnqueues] at he
    | deq t =>
      have he' : opsEnqueues ops = [] := by simpa [opsEnqueues] using he
      by_cases hlt : t - q.lastProcessTime < Config.minEventInterval
      · have hd : q.dequeue t = (none, q) := by
          rw [SessionQueue.dequeue]
          rw [if_pos hlt]
        have hrec := ih q he' hev hpp hps hpt hlp
        have heq : (runOps q (QOp.deq t :: ops)).2 = (runOps q ops).2 := by
          simp [runOps, hd]
        rw [heq]
        refine ⟨hrec.1, fun hex => ?_⟩
        obtain ⟨t', ht', htw⟩ := hex
        rcases List.mem_cons.mp ht' with h | h
        · injection h with h
          subst h
          rw [hlp] at hlt
          have : (0 : Int) < Config.stateCoalesceWindow := by decide
          have : Config.minEventInterval ≤ (100 : Int) := by decide
          exact absurd hlt (by unfold Config.minEventInterval Config.stateCoalesceWindow at *; omega)
        · exact hrec.2 ⟨t', h, htw⟩
      · by_cases hmat : Config.stateCoalesceWindow ≤ t - q.pendingStateTime
        · have hd : q.dequeue t =
              (some e3, { q with pendingState := none, lastProcessTime := t }) := by
            rw [SessionQueue.dequeue]
            rw [if_neg hlt, if_pos ⟨by rw [hps]; rfl, hmat⟩, hps]
          have hrest : (runOps { q with pendingState := none, lastProcessTime := t } ops).2 = [] :=
            runOps_empty_deqOnly ops _ he' hev rfl hpp
          have heq : (runOps q (QOp.deq t :: ops)).2.map Prod.fst = [e3] := by
            simp [runOps, hd, hrest]
          exact ⟨Or.inr heq, fun _ => heq⟩
        · have hd : q.dequeue t = (none, q) := by
            rw [SessionQueue.dequeue]
            rw [if_neg hlt, if_neg (fun hc => hmat hc.2), if_neg ?hpu]
            case hpu =>
              intro hc
              rw [hpp] at hc
              simp at hc
            split
            · rfl
            · rename_i entry rest hcons
              rw [hev] at hcons
              simp at hcons
          have hrec := ih q he' hev hpp hps hpt hlp
          have heq : (runOps q (QOp.deq t :: ops)).2 = (runOps q ops).2 := by
            simp [runOps, hd]
          rw [heq]
          refine ⟨hrec.1, fun hex => ?_⟩
          obtain ⟨t', ht', htw⟩ := hex
          rcases List.mem_cons.mp ht' with h | h
          · injection h with h
            subst h
            rw [hpt] at hmat
            omega
          · exact hrec.2 ⟨t', h, htw⟩

/-- Main induction for C6: while the three state events arrive (in order,
all within the coalescing window of the first), interleaved drain ticks
deliver nothing; each new state event replaces the pending one without
resetting the window start; and after the third event at most one delivery
— of the third event — occurs, exactly when a sufficiently late drain tick
exists. -/
theorem c6_phases (e1 e2 e3 : EventData) (t1 t2 t3 : Int)
    (he1 : e1.etype = "state") (he2 : e2.etype = "state") (he3 : e3.etype = "state")
    (ht1 : 0 ≤ t1) (h12 : t1 ≤ t2) (h23 : t2 ≤ t3)
    (hwin : t3 - t1 < Config.stateCoalesceWindow) :
    ∀ (ops : List QOp) (q : SessionQueue),
      List.Pairwise (fun a b => QOp.time a ≤ QOp.time b) ops →
      q.events = [] → q.pendingPulse = none → q.lastProcessTime = 0 →
      ((opsEnqueues ops = [(e1, t1), (e2, t2), (e3, t3)] ∧ q.pendingState = none) ∨
       (opsEnqueues ops = [(e2, t2), (e3, t3)] ∧ q.pendingState = some e1 ∧
         q.pendingStateTime = t1) ∨
       (opsEnqueues ops = [(e3, t3)] ∧ q.pendingState = some e2 ∧
         q.pendingStateTime = t1)) →
      ((runOps q ops).2.map Prod.fst = [] ∨ (runOps q ops).2.map Prod.fst = [e3]) ∧
      ((∃ t, QOp.deq t ∈ ops ∧ t1 + Config.stateCoalesceWindow ≤ t) →
        (runOps q ops).2.map Prod.fst = [e3]) := by
  intro ops
  induction ops with
  | nil =>
    intro q _ _ _ _ hcase
    rcases hcase with ⟨h, _⟩ | ⟨h, _⟩ | ⟨h, _⟩ <;> simp [opsEnqueues] at h
  | cons op ops ih =>
    intro q hpw hev hpp hlp hcase
    have hpw' := hpw.of_cons
    have hhead := List.pairwise_cons.mp hpw |>.1
    cases op with
    | enq e t =>
      rcases hcase with ⟨h, hps⟩ | ⟨h, hps, hpt⟩ | ⟨h, hps, hpt⟩
      · -- the first event arrives: a fresh window opens at its time
        simp only [opsEnqueues, List.cons.injEq, Prod.mk.injEq] at h
        obtain ⟨⟨hee, het⟩, hrest⟩ := h
        subst hee
        subst het
        have hq' : q.enqueue e (eventPriority e.etype) t =
            { q with pendingState := some e, pendingStateTime := t } := by
          unfold SessionQueue.enqueue
          rw [if_pos he1, if_neg (fun hc => by rw [hps] at hc; simp at hc)]
        have hrec := ih { q with pendingState := some e, pendingStateTime := t }
          hpw' hev hpp hlp (Or.inr (Or.inl ⟨hrest, rfl, rfl⟩))
        have heq : (runOps q (QOp.enq e t :: ops)).2 =
            (runOps { q with pendingState := some e, pendingStateTime := t } ops).2 := by
          simp [runOps, hq']
        rw [heq]
        refine ⟨hrec.1, fun hex => ?_⟩
        obtain ⟨t', ht', htw⟩ := hex
        rcases List.mem_cons.mp ht' with hh | hh
        · simp at hh
        · exact hrec.2 ⟨t', hh, htw⟩
      · -- the second event replaces the pending one, window start kept
        simp only [opsEnqueues, List.cons.injEq, Prod.mk.injEq] at h
        obtain ⟨⟨hee, het⟩, hrest⟩ := h
        subst hee
        subst het
        have hq' : q.enqueue e (eventPriority e.etype) t =
            { q with pendingState := some e } := by
          unfold SessionQueue.enqueue
          rw [if_pos he2, if_pos ⟨by rw [hps]; rfl, by rw [hpt]; omega⟩]
        have hrec := ih { q with pendingState := some e }
          hpw' hev hpp hlp (Or.inr (Or.inr ⟨hrest, rfl, hpt⟩))
        have heq : (runOps q (QOp.enq e t :: ops)).2 =
            (runOps { q with pendingState := some e } ops).2 := by
          simp [runOps, hq']
        rw [heq]
        refine ⟨hrec.1, fun hex => ?_⟩
        obtain ⟨t', ht', htw⟩ := hex
        rcases List.mem_cons.mp ht' with hh | hh
        · simp at hh
        · exact hrec.2 ⟨t', hh, htw⟩
      · -- the third event replaces the pending one: the queue is now armed
        simp only [opsEnqueues, List.cons.injEq, Prod.mk.injEq] at h
        obtain ⟨⟨hee, het⟩, hrest⟩ := h
        subst hee
        subst het
        have hq' : q.enqueue e (eventPriority e.etype) t =
            { q with pendingState := some e } := by
          unfold SessionQueue.enqueue
          rw [if_pos he3, if_pos ⟨by rw [hps]; rfl, by rw [hpt]; omega⟩]
        have hrec := c6_armed e t1 ht1 ops { q with pendingState := some e }
          hrest hev hpp rfl hpt hlp
        have heq : (runOps q (QOp.enq e t :: ops)).2 =
            (runOps { q with pendingState := some e } ops).2 := by
          simp [runOps, hq']
        rw [heq]
        refine ⟨hrec.1, fun hex => ?_⟩
        obtain ⟨t', ht', htw⟩ := hex
        rcases List.mem_cons.mp ht' with hh | hh
        · simp at hh
        · exact hrec.2 ⟨t', hh, htw⟩
    | deq t =>
      -- before the third event has arrived, a drain tick delivers nothing:
      -- its time is bounded by the next event's arrival, inside the window
      have hnext : ∃ tnext, t ≤ tnext ∧ tnext ≤ t3 := by
        rcases hcase with ⟨h, _⟩ | ⟨h, _, _⟩ | ⟨h, _, _⟩
        · exact ⟨t1, hhead _ (exists_enq_of_opsEnqueues_cons h), by omega⟩
        · exact ⟨t2, hhead _ (exists_enq_of_opsEnqueues_cons h), h23⟩
        · exact ⟨t3, hhead _ (exists_enq_of_opsEnqueues_cons h), le_refl t3⟩
      obtain ⟨tnext, htn1, htn2⟩ := hnext
      have hd : q.dequeue t = (none, q) := by
        rw [SessionQueue.dequeue]
        split
        · rfl
        · split
          · rename_i hc
            rcases hcase with ⟨h, hps⟩ | ⟨h, hps, hpt⟩ | ⟨h, hps, hpt⟩
            · rw [hps] at hc
              simp at hc
            · rw [hpt] at hc
              exact absurd hc.2 (by omega)
            · rw [hpt] at hc
              exact absurd hc.2 (by omega)
          · split
            · rename_i hc
              rw [hpp] at hc
              simp at hc
            · split
              · rfl
              · rename_i entry rest hcons
                rw [hev] at hcons
                simp at hcons
      have hcase' :
          (opsEnqueues ops = [(e1, t1), (e2, t2), (e3, t3)] ∧ q.pendingState = none) ∨
          (opsEnqueues ops = [(e2, t2), (e3, t3)] ∧ q.pendingState = some e1 ∧
            q.pendingStateTime = t1) ∨
          (opsEnqueues ops = [(e3, t3)] ∧ q.pendingState = some e2 ∧
            q.pendingStateTime = t1) := by
        rcases hcase with ⟨h, hps⟩ | ⟨h, hps, hpt⟩ | ⟨h, hps, hpt⟩
        · exact Or.inl ⟨by simpa [opsEnqueues] using h, hps⟩
        · exact Or.inr (Or.inl ⟨by simpa [opsEnqueues] using h, hps, hpt⟩)
        · exact Or.inr (Or.inr ⟨by simpa [opsEnqueues] using h, hps, hpt⟩)
      have hrec := ih q hpw' hev hpp hlp hcase'
      have heq : (runOps q (QOp.deq t :: ops)).2 = (runOps q ops).2 := by
        simp [runOps, hd]
      rw [heq]
      refine ⟨hrec.1, fun hex => ?_⟩
      obtain ⟨t', ht', htw⟩ := hex
      rcases List.mem_cons.mp ht' with hh | hh
      · injection hh with hh
        subst hh
        have hcw : Config.stateCoalesceWindow = (100 : Int) := by decide
        omega
      · exact hrec.2 ⟨t', hh, htw⟩


/-- The three coalescing "state" events used as a concrete instance. -/
def c6Event (n : Nat) : EventData :=
  { session_id := "s1", etype := "state", tag := n, combinedCount := none }

/-- A concrete interaction sequence: the three state events (at 0, 50 and
99 ms) interleaved with drain ticks, the last tick after the window. -/
def c6Ops : List QOp :=
  [QOp.enq (c6Event 1) 0, QOp.deq 16, QOp.enq (c6Event 2) 50, QOp.deq 66,
   QOp.enq (c6Event 3) 99, QOp.deq 105, QOp.deq 200]

/-- **C6.** Three Normal-class ("state") events for the same session enqueued
within 100 ms of the first one's arrival coalesce into one delivery carrying
the last event's payload: (i) after the three enqueues the pending coalesced
event is the third one while the window start is still the first event's
arrival time, so replacement does not reset the coalescing window; (ii) over
any chronologically ordered interaction sequence whose enqueues are exactly
these three events, every delivered event is the third one and at most one
delivery occurs; (iii) exactly one delivery occurs as soon as the drain loop
visits the queue at or after window start + 100 ms. -/
theorem stateEvents_coalesce_once (sid : String) (e1 e2 e3 : EventData)
    (t1 t2 t3 : Int)
    (he1 : e1.etype = "state") (he2 : e2.etype = "state") (he3 : e3.etype = "state")
    (ht1 : 0 ≤ t1) (h12 : t1 ≤ t2) (h23 : t2 ≤ t3)
    (hwin : t3 - t1 < Config.stateCoalesceWindow)
    (ops : List QOp)
    (hmono : List.Pairwise (fun a b => QOp.time a ≤ QOp.time b) ops)
    (hops : opsEnqueues ops = [(e1, t1), (e2, t2), (e3, t3)]) :
    ((((SessionQueue.fresh sid).enqueue e1 (eventPriority e1.etype) t1).enqueue
        e2 (eventPriority e2.etype) t2).enqueue e3 (eventPriority e3.etype) t3).pendingState
      = some e3 ∧
    ((((SessionQueue.fresh sid).enqueue e1 (eventPriority e1.etype) t1).enqueue
        e2 (eventPriority e2.etype) t2).enqueue e3 (eventPriority e3.etype) t3).pendingStateTime
      = t1 ∧
    ((runOps (SessionQueue.fresh sid) ops).2.map Prod.fst = [] ∨
     (runOps (SessionQueue.fresh sid) ops).2.map Prod.fst = [e3]) ∧
    ((∃ t, QOp.deq t ∈ ops ∧ t1 + Config.stateCoalesceWindow ≤ t) →
      (runOps (SessionQueue.fresh sid) ops).2.map Prod.fst = [e3]) := by
  have hq1 : (SessionQueue.fresh sid).enqueue e1 (eventPriority e1.etype) t1 =
      { SessionQueue.fresh sid with pendingState := some e1, pendingStateTime := t1 } := by
    unfold SessionQueue.enqueue
    rw [if_pos he1, if_neg (fun hc => by simp [SessionQueue.fresh] at hc)]
  have hq2 : ((SessionQueue.fresh sid).enqueue e1 (eventPriority e1.etype) t1).enqueue
      e2 (eventPriority e2.etype) t2 =
      { SessionQueue.fresh sid with pendingState := some e2, pendingStateTime := t1 } := by
    rw [hq1]
    unfold SessionQueue.enqueue
    rw [if_pos he2, if_pos ⟨rfl, by show t2 - t1 < Config.stateCoalesceWindow; omega⟩]
  have hq3 : (((SessionQueue.fresh sid).enqueue e1 (eventPriority e1.etype) t1).enqueue
      e2 (eventPriority e2.etype) t2).enqueue e3 (eventPriority e3.etype) t3 =
      { SessionQueue.fresh sid with pendingState := some e3, pendingStateTime := t1 } := by
    rw [hq2]
    unfold SessionQueue.enqueue
    rw [if_pos he3, if_pos ⟨rfl, by show t3 - t1 < Config.stateCoalesceWindow; omega⟩]
  have hmain := c6_phases e1 e2 e3 t1 t2 t3 he1 he2 he3 ht1 h12 h23 hwin ops
    (SessionQueue.fresh sid) hmono rfl rfl rfl (Or.inl ⟨hops, rfl⟩)
  exact ⟨by rw [hq3], by rw [hq3], hmain.1, hmain.2⟩

/-- Witness for `stateEvents_coalesce_once`: three concrete state events at
0, 50 and 99 ms; the window start stays 0 after both replacements, and the
only delivery over `c6Ops` is the third event (at the tick at 200 ms). -/
theorem stateEvents_coalesce_once_witness :
    ((((SessionQueue.fresh "s1").enqueue (c6Event 1) (eventPriority (c6Event 1).etype) 0).enqueue
        (c6Event 2) (eventPriority (c6Event 2).etype) 50).enqueue
        (c6Event 3) (eventPriority (c6Event 3).etype) 99).pendingState = some (c6Event 3) ∧
    ((((SessionQueue.fresh "s1").enqueue (c6Event 1) (eventPriority (c6Event 1).etype) 0).enqueue
        (c6Event 2) (eventPriority (c6Event 2).etype) 50).enqueue
        (c6Event 3) (eventPriority (c6Event 3).etype) 99).pendingStateTime = 0 ∧
    (runOps (SessionQueue.fresh "s1") c6Ops).2.map Prod.fst = [c6Event 3] := by
  have h := stateEvents_coalesce_once "s1" (c6Event 1) (c6Event 2) (c6Event 3) 0 50 99
    rfl rfl rfl (by decide) (by decide) (by decide) (by decide) c6Ops (by decide) (by decide)
  exact ⟨h.1, h.2.1, h.2.2.2 ⟨200, by decide, by decide⟩⟩

end Claudegrid
